import Mathlib

/-!
Verification development for the Review-Scraper repository.

The Python sources are shallowly embedded into Lean:

* `PyDateTime` models Python `datetime.datetime` values (naive, no tzinfo);
  comparison of `datetime` objects is lexicographic on
  (year, month, day, hour, minute, second), which `PyDateTime.ltb` /
  `PyDateTime.leb` mirror.
* `src/utils/date_utils.py` is embedded as `parse_date`, `is_date_in_range`
  and `should_stop_scraping`.  `datetime.strptime` applied to each of the
  eight concrete format strings of `parse_date` is embedded as one string
  parser per format (`pFmtISO`, `pFmtBdY`, ...).
* `src/scrapers/*.py` element handling is embedded over a small DOM model
  (`Node`), and the orchestration loop of `BaseScraper.scrape` is embedded
  as `scrapeAux` / `scrape`, with the site adapters and the network kept
  abstract as an oracle record `ScrapeOps`.
* `src/utils/request_utils.py` `fetch_with_retry` is embedded with the
  network call abstracted as an oracle `Nat → Option α`.
* `src/utils/sample_data.py` `generate_sample_reviews` is embedded with the
  `random` module abstracted as an oracle record `SampleRand`.
-/

/-- Model of a Python `datetime.datetime` value (naive): six components. -/
structure PyDateTime where
  year : Nat
  month : Nat
  day : Nat
  hour : Nat
  minute : Nat
  second : Nat
deriving DecidableEq, Repr

/-- Python `datetime` comparison `a < b`: lexicographic on the six
components (year, month, day, hour, minute, second). -/
def PyDateTime.ltb (a b : PyDateTime) : Bool :=
  if a.year = b.year then
    if a.month = b.month then
      if a.day = b.day then
        if a.hour = b.hour then
          if a.minute = b.minute then a.second < b.second
          else a.minute < b.minute
        else a.hour < b.hour
      else a.day < b.day
    else a.month < b.month
  else a.year < b.year

/-- Python `datetime` comparison `a <= b`. -/
def PyDateTime.leb (a b : PyDateTime) : Bool :=
  PyDateTime.ltb a b || a == b

/-- Leap-year test, as implemented by Python's `datetime` module. -/
def isLeapYear (y : Nat) : Bool :=
  (y % 4 == 0 && y % 100 != 0) || y % 400 == 0

/-- Number of days in a month, as used by `datetime`'s validity check. -/
def daysInMonth (y m : Nat) : Nat :=
  if m = 1 then 31
  else if m = 2 then (if isLeapYear y then 29 else 28)
  else if m = 3 then 31
  else if m = 4 then 30
  else if m = 5 then 31
  else if m = 6 then 30
  else if m = 7 then 31
  else if m = 8 then 31
  else if m = 9 then 30
  else if m = 10 then 31
  else if m = 11 then 30
  else 31

/-- Validity predicate enforced by the `datetime.datetime` constructor
(which `strptime` calls): all components in range.  `strftime`'s `%Y`
rendering is 4 digits only for years up to 9999, matching `datetime`'s own
`MAXYEAR`. -/
def PyDateTime.ValidB (d : PyDateTime) : Bool :=
  1 ≤ d.year && d.year ≤ 9999 && 1 ≤ d.month && d.month ≤ 12 &&
  1 ≤ d.day && d.day ≤ daysInMonth d.year d.month &&
  d.hour < 24 && d.minute < 60 && d.second < 60

/-- Linear key: for component-bounded values, `leb` agrees with comparing
keys, exhibiting the lexicographic comparison as a genuine calendar order. -/
def PyDateTime.key (d : PyDateTime) : Nat :=
  ((((d.year * 13 + d.month) * 32 + d.day) * 24 + d.hour) * 60 + d.minute) * 60
    + d.second

/-- Field bounds under which the linear key faithfully represents the
lexicographic datetime order (weaker than full validity). -/
def PyDateTime.Bounded (d : PyDateTime) : Prop :=
  d.month < 13 ∧ d.day < 32 ∧ d.hour < 24 ∧ d.minute < 60 ∧ d.second < 60

instance (d : PyDateTime) : Decidable d.Bounded := by
  unfold PyDateTime.Bounded
  infer_instance

/-- `is_date_in_range` from `src/utils/date_utils.py`:
`start_date <= review_date <= end_date`. -/
def is_date_in_range (review_date start_date end_date : PyDateTime) : Bool :=
  start_date.leb review_date && review_date.leb end_date

/-- `should_stop_scraping` from `src/utils/date_utils.py`: `False` when the
date failed to parse (`None`), otherwise `review_date < start_date`. -/
def should_stop_scraping (review_date : Option PyDateTime)
    (start_date : PyDateTime) : Bool :=
  match review_date with
  | none => false
  | some d => d.ltb start_date

/-! ### parse_date

`parse_date` (src/utils/date_utils.py) strips the input and tries
`datetime.strptime` with eight formats in a fixed order, returning the
first success, else `None`.  Each `strptime` call is embedded as one
parser below.  CPython's `_strptime` compiles a format into an anchored
regex over the whole string where `%Y` is exactly four digits, `%d`, `%m`,
`%H`, `%M`, `%S` are one or two digits (greedy), `%B`/`%b` is a
case-insensitive alternation of the locale month names, whitespace in the
format matches one or more whitespace characters, and other characters are
literals; the parsed numbers are then validated by the
`datetime.datetime` constructor.  In each of the eight formats every
digit directive is followed by a non-digit literal or the end of the
string, so the greedy one-or-two-digit match never needs regex
backtracking; the parsers below therefore consume digits greedily. -/

/-- Character of the ASCII digit `n % 10` (how strftime renders a digit). -/
def digitChar (n : Nat) : Char := Char.ofNat (48 + n % 10)

/-- Numeric value of an ASCII digit character. -/
def d10 (c : Char) : Nat := c.toNat - 48

/-- Zero-padded two-digit rendering (strftime `%m`, `%d`, `%H`, `%M`, `%S`). -/
def render2 (n : Nat) : List Char := [digitChar (n / 10), digitChar n]

/-- Zero-padded four-digit rendering (strftime `%Y` for years 1000-9999). -/
def render4 (n : Nat) : List Char :=
  [digitChar (n / 1000), digitChar (n / 100), digitChar (n / 10), digitChar n]

/-- strptime digit field `\d{1,2}`: one or two digits, greedily. -/
def pD2 : List Char → Option (Nat × List Char)
  | [] => none
  | [a] => if a.isDigit then some (d10 a, []) else none
  | a :: b :: rest =>
    if a.isDigit then
      if b.isDigit then some (d10 a * 10 + d10 b, rest)
      else some (d10 a, b :: rest)
    else none

/-- strptime `%Y`: exactly four digits. -/
def pD4 : List Char → Option (Nat × List Char)
  | a :: b :: c :: d :: rest =>
    if a.isDigit && b.isDigit && c.isDigit && d.isDigit then
      some (((d10 a * 10 + d10 b) * 10 + d10 c) * 10 + d10 d, rest)
    else none
  | _ => none

/-- A literal character of the format string. -/
def pLit (lit : Char) : List Char → Option (List Char)
  | [] => none
  | c :: rest => if c == lit then some rest else none

/-- Whitespace in the format string matches one or more whitespace chars. -/
def pSpaces : List Char → Option (List Char)
  | [] => none
  | c :: rest =>
    if c.isWhitespace then some (rest.dropWhile Char.isWhitespace) else none

/-- End of input: `_strptime` rejects unconsumed trailing characters. -/
def pEnd : List Char → Option Unit
  | [] => some ()
  | _ :: _ => none

/-- Case-insensitive prefix match, as `_strptime`'s IGNORECASE name regex. -/
def stripPrefixCI : List Char → List Char → Option (List Char)
  | [], cs => some cs
  | _ :: _, [] => none
  | p :: ps, c :: cs =>
    if p.toLower == c.toLower then stripPrefixCI ps cs else none

/-- Full English month names (the C locale used by `strftime`/`strptime`). -/
def monthNamesFull : List (String × Nat) :=
  [("January", 1), ("February", 2), ("March", 3), ("April", 4), ("May", 5),
   ("June", 6), ("July", 7), ("August", 8), ("September", 9),
   ("October", 10), ("November", 11), ("December", 12)]

/-- Abbreviated English month names. -/
def monthNamesAbbr : List (String × Nat) :=
  [("Jan", 1), ("Feb", 2), ("Mar", 3), ("Apr", 4), ("May", 5), ("Jun", 6),
   ("Jul", 7), ("Aug", 8), ("Sep", 9), ("Oct", 10), ("Nov", 11), ("Dec", 12)]

/-- strptime `%B`/`%b`: match one month name case-insensitively.  No
English month name (full or abbreviated) is a prefix of another one in the
same list, so trying the names in any fixed order matches the regex
alternation. -/
def pMonthIn : List (String × Nat) → List Char → Option (Nat × List Char)
  | [], _ => none
  | (nm, v) :: rest, cs =>
    match stripPrefixCI nm.toList cs with
    | some r => some (v, r)
    | none => pMonthIn rest cs

/-- Range validation done by the `datetime.datetime` constructor, which
`strptime` invokes on the parsed fields; out-of-range fields raise
`ValueError`, making that format fail. -/
def mkDT (y mo d h mi s : Nat) : Option PyDateTime :=
  if 1 ≤ y ∧ y ≤ 9999 ∧ 1 ≤ mo ∧ mo ≤ 12 ∧ 1 ≤ d ∧ d ≤ daysInMonth y mo
      ∧ h < 24 ∧ mi < 60 ∧ s < 60 then
    some ⟨y, mo, d, h, mi, s⟩
  else none

/-- strptime with format `%Y-%m-%d`. -/
def pFmtISO (cs : List Char) : Option PyDateTime := do
  let (y, cs) ← pD4 cs
  let cs ← pLit '-' cs
  let (mo, cs) ← pD2 cs
  let cs ← pLit '-' cs
  let (d, cs) ← pD2 cs
  let _ ← pEnd cs
  mkDT y mo d 0 0 0

/-- strptime with format `%B %d, %Y`. -/
def pFmtBdY (cs : List Char) : Option PyDateTime := do
  let (mo, cs) ← pMonthIn monthNamesFull cs
  let cs ← pSpaces cs
  let (d, cs) ← pD2 cs
  let cs ← pLit ',' cs
  let cs ← pSpaces cs
  let (y, cs) ← pD4 cs
  let _ ← pEnd cs
  mkDT y mo d 0 0 0

/-- strptime with format `%b %d, %Y`. -/
def pFmtbdY (cs : List Char) : Option PyDateTime := do
  let (mo, cs) ← pMonthIn monthNamesAbbr cs
  let cs ← pSpaces cs
  let (d, cs) ← pD2 cs
  let cs ← pLit ',' cs
  let cs ← pSpaces cs
  let (y, cs) ← pD4 cs
  let _ ← pEnd cs
  mkDT y mo d 0 0 0

/-- strptime with format `%d %B %Y`. -/
def pFmtdBY (cs : List Char) : Option PyDateTime := do
  let (d, cs) ← pD2 cs
  let cs ← pSpaces cs
  let (mo, cs) ← pMonthIn monthNamesFull cs
  let cs ← pSpaces cs
  let (y, cs) ← pD4 cs
  let _ ← pEnd cs
  mkDT y mo d 0 0 0

/-- strptime with format `%d %b %Y`. -/
def pFmtdbY (cs : List Char) : Option PyDateTime := do
  let (d, cs) ← pD2 cs
  let cs ← pSpaces cs
  let (mo, cs) ← pMonthIn monthNamesAbbr cs
  let cs ← pSpaces cs
  let (y, cs) ← pD4 cs
  let _ ← pEnd cs
  mkDT y mo d 0 0 0

/-- strptime with format `%m/%d/%Y`. -/
def pFmtmdY (cs : List Char) : Option PyDateTime := do
  let (mo, cs) ← pD2 cs
  let cs ← pLit '/' cs
  let (d, cs) ← pD2 cs
  let cs ← pLit '/' cs
  let (y, cs) ← pD4 cs
  let _ ← pEnd cs
  mkDT y mo d 0 0 0

/-- strptime with format `%d/%m/%Y`. -/
def pFmtdmY (cs : List Char) : Option PyDateTime := do
  let (d, cs) ← pD2 cs
  let cs ← pLit '/' cs
  let (mo, cs) ← pD2 cs
  let cs ← pLit '/' cs
  let (y, cs) ← pD4 cs
  let _ ← pEnd cs
  mkDT y mo d 0 0 0

/-- strptime with format `%Y-%m-%d %H:%M:%S`. -/
def pFmtISOT (cs : List Char) : Option PyDateTime := do
  let (y, cs) ← pD4 cs
  let cs ← pLit '-' cs
  let (mo, cs) ← pD2 cs
  let cs ← pLit '-' cs
  let (d, cs) ← pD2 cs
  let cs ← pSpaces cs
  let (h, cs) ← pD2 cs
  let cs ← pLit ':' cs
  let (mi, cs) ← pD2 cs
  let cs ← pLit ':' cs
  let (s, cs) ← pD2 cs
  let _ ← pEnd cs
  mkDT y mo d h mi s

/-- Python `str.strip()`: drop leading and trailing whitespace. -/
def trimChars (cs : List Char) : List Char :=
  ((cs.dropWhile Char.isWhitespace).reverse.dropWhile Char.isWhitespace).reverse

/-- `str.strip()` on strings. -/
def trimStr (s : String) : String := String.mk (trimChars s.toList)

/-- `parse_date` from src/utils/date_utils.py with the default format
list: strip the input, then try the eight formats in order, returning the
first successful parse, else `None`. -/
def parse_date (s : String) : Option PyDateTime :=
  pFmtISO (trimChars s.toList) <|> pFmtBdY (trimChars s.toList)
    <|> pFmtbdY (trimChars s.toList) <|> pFmtdBY (trimChars s.toList)
    <|> pFmtdbY (trimChars s.toList) <|> pFmtmdY (trimChars s.toList)
    <|> pFmtdmY (trimChars s.toList) <|> pFmtISOT (trimChars s.toList)

/-- strftime `%B`. -/
def monthFull (m : Nat) : String :=
  match m with
  | 1 => "January" | 2 => "February" | 3 => "March" | 4 => "April"
  | 5 => "May" | 6 => "June" | 7 => "July" | 8 => "August"
  | 9 => "September" | 10 => "October" | 11 => "November" | 12 => "December"
  | _ => ""

/-- strftime `%b`. -/
def monthAbbr (m : Nat) : String :=
  match m with
  | 1 => "Jan" | 2 => "Feb" | 3 => "Mar" | 4 => "Apr" | 5 => "May"
  | 6 => "Jun" | 7 => "Jul" | 8 => "Aug" | 9 => "Sep" | 10 => "Oct"
  | 11 => "Nov" | 12 => "Dec"
  | _ => ""

/-- The eight formats supported by `parse_date`, in its priority order. -/
inductive DateFmt where
  | iso | fullMonth | abbrMonth | dayFullMonth | dayAbbrMonth
  | slashMDY | slashDMY | isoSeconds
deriving DecidableEq, Repr

/-- Rendering a datetime with strftime in each supported format (the
claim's "rendering that date as a string in each supported format"). -/
def renderDate : DateFmt → PyDateTime → List Char
  | .iso, d => render4 d.year ++ '-' :: render2 d.month ++ '-' :: render2 d.day
  | .fullMonth, d =>
      (monthFull d.month).toList ++ ' ' :: render2 d.day
        ++ ',' :: ' ' :: render4 d.year
  | .abbrMonth, d =>
      (monthAbbr d.month).toList ++ ' ' :: render2 d.day
        ++ ',' :: ' ' :: render4 d.year
  | .dayFullMonth, d =>
      render2 d.day ++ ' ' :: (monthFull d.month).toList ++ ' ' :: render4 d.year
  | .dayAbbrMonth, d =>
      render2 d.day ++ ' ' :: (monthAbbr d.month).toList ++ ' ' :: render4 d.year
  | .slashMDY, d => render2 d.month ++ '/' :: render2 d.day ++ '/' :: render4 d.year
  | .slashDMY, d => render2 d.day ++ '/' :: render2 d.month ++ '/' :: render4 d.year
  | .isoSeconds, d =>
      render4 d.year ++ '-' :: render2 d.month ++ '-' :: render2 d.day
        ++ ' ' :: render2 d.hour ++ ':' :: render2 d.minute ++ ':' :: render2 d.second

/-! ### Review records and the DOM model

`Review` is the flat dict built by the adapters' `parse_review` and by the
sample generator.  `Node` is a minimal model of a BeautifulSoup parse
tree; `find`/`find_all` search the strict descendants of a node in
document order, and the `class_`-lambda selectors of the adapters reduce
to substring tests on the (space-joined) class attribute value — the
keywords involved contain no spaces, so a substring of the joined string
always lies within a single class token. -/

structure Review where
  title : String
  review_text : String
  review_date : String
  reviewer : String
  rating : String
  source : String
deriving DecidableEq, Repr

inductive Node where
  | text (s : String) : Node
  | elem (tag : String) (attrs : List (String × String)) (children : List Node) : Node

mutual

/-- Strings of all text descendants of a node, in document order. -/
def nodeStrings : Node → List String
  | .text s => [s]
  | .elem _ _ cs => nodeStringsList cs

def nodeStringsList : List Node → List String
  | [] => []
  | c :: rest => nodeStrings c ++ nodeStringsList rest

end

mutual

/-- All strict descendants of a node, in document order (what `find_all`
iterates over). -/
def descendants : Node → List Node
  | .text _ => []
  | .elem _ _ cs => descendantsList cs

def descendantsList : List Node → List Node
  | [] => []
  | c :: rest => c :: (descendants c ++ descendantsList rest)

end

/-- Serialization of attributes, for the `str(tag)` markup rendering. -/
def attrsStr : List (String × String) → String
  | [] => ""
  | (k, v) :: rest => " " ++ k ++ "=" ++ "\"" ++ v ++ "\"" ++ attrsStr rest

mutual

/-- Python `str(tag)`: the serialized markup of the element. -/
def nodeStr : Node → String
  | .text s => s
  | .elem tag attrs cs =>
      "<" ++ tag ++ attrsStr attrs ++ ">" ++ nodeStrList cs ++ "</" ++ tag ++ ">"

def nodeStrList : List Node → String
  | [] => ""
  | c :: rest => nodeStr c ++ nodeStrList rest

end

/-- BeautifulSoup `get_text()`: concatenation of all contained strings. -/
def getText (n : Node) : String := String.join (nodeStrings n)

/-- BeautifulSoup `get_text(strip=True)`: each string stripped, then
joined (empty pieces contribute nothing to the concatenation). -/
def getTextStrip (n : Node) : String :=
  String.join ((nodeStrings n).map trimStr)

/-- Python `str.lower()` (ASCII suffices for the keywords involved). -/
def lowerStr (s : String) : String := String.mk (s.toList.map Char.toLower)

/-- Python `str.split(sep)` for a single-character separator. -/
def splitOnChar (sep : Char) : List Char → List (List Char)
  | [] => [[]]
  | c :: rest =>
    if c == sep then [] :: splitOnChar sep rest
    else
      match splitOnChar sep rest with
      | g :: gs => (c :: g) :: gs
      | [] => [[c]]

def splitLines (s : String) : List String :=
  (splitOnChar (Char.ofNat 10) s.toList).map String.mk

/-- Case-sensitive prefix strip. -/
def stripPre : List Char → List Char → Option (List Char)
  | [], cs => some cs
  | _ :: _, [] => none
  | p :: ps, c :: cs => if p == c then stripPre ps cs else none

/-- `str.replace(needle, repl)` (all occurrences, non-empty needle), with
explicit fuel so that it reduces in the kernel. -/
def replaceFuel (needle repl : List Char) : Nat → List Char → List Char
  | 0, cs => cs
  | _ + 1, [] => []
  | f + 1, c :: rest =>
    match stripPre needle (c :: rest) with
    | some suffix =>
      if needle.isEmpty then c :: replaceFuel needle repl f rest
      else repl ++ replaceFuel needle repl f suffix
    | none => c :: replaceFuel needle repl f rest

def replaceStr (s needle repl : String) : String :=
  String.mk (replaceFuel needle.toList repl.toList s.toList.length s.toList)

def listIsPrefix : List Char → List Char → Bool
  | [], _ => true
  | _ :: _, [] => false
  | p :: ps, c :: cs => p == c && listIsPrefix ps cs

/-- Python `needle in hay` substring test. -/
def containsSub : List Char → List Char → Bool
  | [], needle => needle.isEmpty
  | c :: rest, needle => listIsPrefix needle (c :: rest) || containsSub rest needle

def strContains (hay needle : String) : Bool := containsSub hay.toList needle.toList

def Node.tagOf : Node → String
  | .text _ => ""
  | .elem t _ _ => t

def Node.attr (n : Node) (nm : String) : Option String :=
  match n with
  | .text _ => none
  | .elem _ attrs _ => (attrs.find? (fun p => p.1 == nm)).map Prod.snd

/-- Python `tag.get(name, default)`. -/
def Node.attrD (n : Node) (nm dflt : String) : String := (n.attr nm).getD dflt

def isTag (t : String) (n : Node) : Bool := n.tagOf == t

/-- The adapters' `class_`-lambda `x and KEYWORD in str(x).lower()`. -/
def classHas (kw : String) (n : Node) : Bool :=
  match n.attr "class" with
  | some s => strContains (lowerStr s) kw
  | none => false

def classHasAny (kws : List String) (n : Node) : Bool :=
  kws.any (fun kw => classHas kw n)

/-- `find_all` with a predicate built from a selector. -/
def findAll (n : Node) (p : Node → Bool) : List Node := (descendants n).filter p

/-- `find_all(..., limit=lim)`. -/
def findAllLim (n : Node) (p : Node → Bool) (lim : Nat) : List Node :=
  (findAll n p).take lim

/-- `find`: first matching descendant in document order, if any. -/
def findFirst (n : Node) (p : Node → Bool) : Option Node := (findAll n p).head?

/-- First selector in a cascade that matches (`for tag, attrs in selectors:
elem = element.find(tag, attrs); if elem: ... break`). -/
def firstFind (n : Node) : List (Node → Bool) → Option Node
  | [] => none
  | p :: rest =>
    match findFirst n p with
    | some t => some t
    | none => firstFind n rest

/-! ### Regex models used by the adapters

Each adapter uses `re.match`/`re.search` with a handful of concrete
patterns; they are embedded as character-level matchers with the same
greedy-with-backtracking behavior. -/

/-- Python re.match of pattern caret, digits, slash-or-dash, digits
(the G2 "looks like a bare date" prefix test) is not None. -/
def matchDigitsSepDigits (cs : List Char) : Bool :=
  match cs with
  | c :: rest =>
    if c.isDigit then
      match rest.dropWhile Char.isDigit with
      | s :: t =>
        (s == '/' || s == '-') &&
          (match t with
           | d :: _ => d.isDigit
           | [] => false)
      | [] => false
    else false
  | [] => false

/-- `re.match(r'^\d+\.?\d*\s*(star|out of)', text.lower())` is not None. -/
def matchRatingish (cs : List Char) : Bool :=
  match cs with
  | c :: rest =>
    if c.isDigit then
      let r1 := rest.dropWhile Char.isDigit
      let r2 := match r1 with
                | '.' :: t => t.dropWhile Char.isDigit
                | _ => r1
      let r3 := r2.dropWhile Char.isWhitespace
      listIsPrefix "star".toList r3 || listIsPrefix "out of".toList r3
    else false
  | [] => false

/-- Exactly `k` digits, returning them and the rest. -/
def takeDigits : Nat → List Char → Option (List Char × List Char)
  | 0, cs => some ([], cs)
  | _ + 1, [] => none
  | k + 1, c :: rest =>
    if c.isDigit then
      match takeDigits k rest with
      | some (ds, r) => some (c :: ds, r)
      | none => none
    else none

/-- Greedy counted repetition with regex backtracking: try the digit
counts in the given (descending) order until the continuation succeeds. -/
def tryCounts (counts : List Nat) (cs : List Char)
    (k : List Char → List Char → Option (List Char)) : Option (List Char) :=
  match counts with
  | [] => none
  | n :: rest =>
    match takeDigits n cs with
    | some (ds, r) =>
      match k ds r with
      | some m => some m
      | none => tryCounts rest cs k
    | none => tryCounts rest cs k

/-- Try to match `\d{4}-\d{2}-\d{2}` at this position. -/
def matchISOAt (cs : List Char) : Option (List Char) :=
  match takeDigits 4 cs with
  | none => none
  | some (a, r) =>
    match r with
    | '-' :: r =>
      match takeDigits 2 r with
      | none => none
      | some (b, r) =>
        match r with
        | '-' :: r =>
          match takeDigits 2 r with
          | none => none
          | some (c, _) => some (a ++ '-' :: b ++ '-' :: c)
        | _ => none
    | _ => none

/-- A slash-or-dash separator character. -/
def sepSl : List Char → Option (Char × List Char)
  | c :: t => if c == '/' || c == '-' then some (c, t) else none
  | [] => none

/-- Try to match one-or-two digits, slash-or-dash, one-or-two digits,
slash-or-dash, two-to-four digits at this position. -/
def matchSlashAt (cs : List Char) : Option (List Char) :=
  tryCounts [2, 1] cs (fun a r =>
    match sepSl r with
    | none => none
    | some (s1, r) =>
      tryCounts [2, 1] r (fun b r =>
        match sepSl r with
        | none => none
        | some (s2, r) =>
          tryCounts [4, 3, 2] r (fun c _ => some (a ++ s1 :: b ++ s2 :: c))))

/-- Try to match `[A-Z][a-z]+ \d{1,2}, \d{4}` at this position. -/
def matchMonthAt (cs : List Char) : Option (List Char) :=
  match cs with
  | c :: rest =>
    if c.isUpper then
      let lows := rest.takeWhile Char.isLower
      if lows.isEmpty then none
      else
        match rest.drop lows.length with
        | ' ' :: r2 =>
          tryCounts [2, 1] r2 (fun ds r3 =>
            match r3 with
            | ',' :: ' ' :: r4 =>
              match takeDigits 4 r4 with
              | some (ys, _) => some (c :: lows ++ ' ' :: ds ++ ',' :: ' ' :: ys)
              | none => none
            | _ => none)
        | _ => none
    else none
  | [] => none

/-- `re.search`: first position (left to right) where the pattern
matches; returns the matched text. -/
def scanFirst (matchAt : List Char → Option (List Char)) : List Char → Option String
  | [] => none
  | c :: rest =>
    match matchAt (c :: rest) with
    | some m => some (String.mk m)
    | none => scanFirst matchAt rest

/-- The date-regex cascade shared by the G2 and Capterra parsers:
ISO, then slash-delimited, then "Month DD, YYYY"; empty if none match. -/
def searchDatePatterns (cs : List Char) : String :=
  match scanFirst matchISOAt cs with
  | some m => m
  | none =>
    match scanFirst matchSlashAt cs with
    | some m => m
    | none =>
      match scanFirst matchMonthAt cs with
      | some m => m
      | none => ""

/-- `re.search(r'(\d+\.?\d*)', text)`: first number token. -/
def matchNumAt (cs : List Char) : Option (List Char) :=
  match cs with
  | c :: rest =>
    if c.isDigit then
      let ds := rest.takeWhile Char.isDigit
      match rest.drop ds.length with
      | '.' :: r2 => some (c :: ds ++ '.' :: r2.takeWhile Char.isDigit)
      | _ => some (c :: ds)
    else none
  | [] => none

def searchNum (s : String) : Option String := scanFirst matchNumAt s.toList

/-! ### Adapter parse_review (src/scrapers/g2.py, capterra.py, trustpilot.py) -/

def g2TitleSel : List (Node → Bool) :=
  [isTag "h2", isTag "h3", isTag "h4", isTag "h5",
   fun n => isTag "div" n && classHas "title" n,
   fun n => isTag "span" n && classHas "title" n]

def g2TextSel : List (Node → Bool) :=
  [fun n => isTag "p" n
      && classHasAny ["review", "text", "content", "body", "description"] n,
   fun n => isTag "div" n
      && classHasAny ["review", "text", "content", "body", "description"] n,
   fun n => isTag "span" n
      && classHasAny ["review", "text", "content", "description"] n,
   isTag "p", isTag "div"]

/-- G2's longest-text scan: keep the longest candidate longer than 30
characters that does not look like a bare date or a star-rating fragment. -/
def g2Longest : List Node → String → String
  | [], best => best
  | t :: rest, best =>
    let text := getTextStrip t
    if text.length > best.length && text.length > 30 then
      if !matchDigitsSepDigits text.toList
          && !matchRatingish (lowerStr text).toList then
        g2Longest rest text
      else g2Longest rest best
    else g2Longest rest best

/-- G2's fallback when no text block qualified: substantial lines of the
element's whole text, first three joined. -/
def g2TextFallback (e : Node) : String :=
  let all_text := getTextStrip e
  let lines := ((splitLines all_text).map trimStr).filter
    (fun l => l.length > 30)
  if !lines.isEmpty then String.intercalate " " (lines.take 3) else ""

/-- Date extraction shared shape: `<time datetime=...>`, else a
date-classed span/div, else the regex cascade over the whole text. -/
def g2Date (e : Node) : String :=
  match findFirst e (isTag "time") with
  | some t =>
    let dt := t.attrD "datetime" ""
    if dt != "" then dt else getTextStrip t
  | none =>
    match findFirst e
        (fun n => (isTag "span" n || isTag "div" n) && classHas "date" n) with
    | some t => getTextStrip t
    | none => searchDatePatterns (getText e).toList

def g2ReviewerSel : List (Node → Bool) :=
  [fun n => isTag "a" n && classHasAny ["user", "author", "reviewer"] n,
   fun n => isTag "span" n && classHasAny ["user", "author", "reviewer"] n,
   fun n => isTag "div" n && classHasAny ["user", "author"] n]

/-- Star sub-elements flagged as filled/full/active, counted on the
serialized markup as `str(s).lower()` does. -/
def filledStars (stars : List Node) (kws : List String) : List Node :=
  stars.filter (fun s => kws.any (fun kw => strContains (lowerStr (nodeStr s)) kw))

/-- Rating extraction shared by G2 and Capterra. -/
def g2Rating (e : Node) : String :=
  match findFirst e
      (fun n => (isTag "div" n || isTag "span" n) && classHas "rating" n) with
  | none => ""
  | some relem =>
    let rating_text := getTextStrip relem
    match searchNum rating_text with
    | some num => num
    | none =>
      let stars := findAll relem
        (fun n => (isTag "svg" n || isTag "i" n || isTag "span" n)
          && classHas "star" n)
      if !stars.isEmpty then
        toString (filledStars stars ["filled", "full", "active"]).length
      else ""

/-- `G2Scraper.parse_review`. -/
def g2_parse_review (e : Node) : Option Review :=
  let title :=
    match firstFind e g2TitleSel with
    | some t => getTextStrip t
    | none => ""
  let longest := g2Longest (g2TextSel.flatMap (fun p => findAll e p)) ""
  let review_text := if longest != "" then longest else g2TextFallback e
  let reviewer :=
    match firstFind e g2ReviewerSel with
    | some t => getTextStrip t
    | none => ""
  let review : Review :=
    { title := title
      review_text := review_text
      review_date := g2Date e
      reviewer := reviewer
      rating := g2Rating e
      source := "g2" }
  if review.review_text != "" || review.title != "" then some review else none

def capTitleSel : List (Node → Bool) :=
  [isTag "h2", isTag "h3", isTag "h4",
   fun n => isTag "div" n && classHas "title" n,
   fun n => isTag "span" n && classHas "title" n]

def capTextSel : List (Node → Bool) :=
  [fun n => isTag "p" n && classHasAny ["review", "text", "content", "body"] n,
   fun n => isTag "div" n && classHasAny ["review", "text", "content", "body"] n,
   fun n => isTag "span" n && classHasAny ["review", "text", "content"] n,
   isTag "p"]

/-- Capterra's text scan: first selector whose first match has more than
20 characters wins. -/
def capText (e : Node) : List (Node → Bool) → String
  | [] => ""
  | p :: rest =>
    match findFirst e p with
    | some t =>
      let text := getTextStrip t
      if text.length > 20 then text else capText e rest
    | none => capText e rest

/-- `CapterraScraper.parse_review`. -/
def capterra_parse_review (e : Node) : Option Review :=
  let title :=
    match firstFind e capTitleSel with
    | some t => getTextStrip t
    | none => ""
  let reviewer :=
    match firstFind e g2ReviewerSel with
    | some t => getTextStrip t
    | none => ""
  let review : Review :=
    { title := title
      review_text := capText e capTextSel
      review_date := g2Date e
      reviewer := reviewer
      rating := g2Rating e
      source := "capterra" }
  if review.review_text != "" || review.title != "" then some review else none

/-- `TrustpilotScraper.parse_review`. -/
def trustpilot_parse_review (e : Node) : Option Review :=
  let title :=
    match findFirst e (isTag "h2") with
    | some t => getTextStrip t
    | none =>
      match findFirst e (isTag "h3") with
      | some t => getTextStrip t
      | none => ""
  let review_text :=
    match findFirst e
        (fun n => isTag "p" n && classHasAny ["review", "text", "content"] n) with
    | some t => getTextStrip t
    | none =>
      match findFirst e
          (fun n => isTag "div" n
            && classHasAny ["review", "text", "content"] n) with
      | some t => getTextStrip t
      | none => ""
  let review_date :=
    match findFirst e (isTag "time") with
    | some t =>
      let dt := t.attrD "datetime" ""
      if dt != "" then dt else getTextStrip t
    | none =>
      match findFirst e (fun n => isTag "span" n && classHas "date" n) with
      | some t => getTextStrip t
      | none => ""
  let reviewer :=
    match findFirst e (fun n => isTag "a" n && classHas "user" n) with
    | some t => getTextStrip t
    | none =>
      match findFirst e
          (fun n => isTag "span" n
            && classHasAny ["user", "author", "name"] n) with
      | some t => getTextStrip t
      | none => ""
  let rating :=
    match (match findFirst e (fun n => isTag "div" n && classHas "rating" n) with
           | some t => some t
           | none => findFirst e (fun n => isTag "span" n && classHas "rating" n)) with
    | none => ""
    | some relem =>
      let rating_text := getTextStrip relem
      match searchNum rating_text with
      | some num => num
      | none =>
        let svgs := findAll relem (isTag "svg")
        let stars :=
          if !svgs.isEmpty then svgs
          else findAll relem (fun n => isTag "i" n && classHas "star" n)
        if !stars.isEmpty then
          toString (filledStars stars ["filled", "full"]).length
        else ""
  let review : Review :=
    { title := title
      review_text := review_text
      review_date := review_date
      reviewer := reviewer
      rating := rating
      source := "trustpilot" }
  if review.review_text != "" || review.title != "" then some review else none

/-! ### Fallback extraction and the orchestration loop
(src/scrapers/base_scraper.py)

The loop of `BaseScraper.scrape` is embedded as `scrapeAux`.  The parts it
delegates — `get_soup` (network), `extract_reviews_from_json`,
`get_review_elements`, `parse_review`, `get_next_page_url`,
`get_company_url`, `get_source_name` — are abstracted as the oracle record
`ScrapeOps`, because the claims about the loop quantify over their
behavior.  `scrapeAux fuel url acc` returns the accumulated review list,
the number of pages processed, and whether the loop exited through the
`return self.reviews` inside the embedded-JSON pass (which bypasses the
sample-data substitution).  The Python loop runs the body for
`page_num = 1, 2, ...` and breaks once `page_num > 100`; this is the same
as allowing `fuel` further pages after the current one and starting
`scrape` with `fuel = 99`. -/

def fallbackKeywords : List String :=
  ["review", "rating", "star", "reviewed", "feedback"]

/-- The per-candidate test of `fallback_extract_reviews`: review-like
keyword in the lowered text, more than 100 characters of stripped text,
and at least two descendants among p/div/span (first five inspected). -/
def fallbackCond (c : Node) : Bool :=
  let text := lowerStr (getText c)
  let has_review_keywords := fallbackKeywords.any (fun kw => strContains text kw)
  let has_substantial_text := (getTextStrip c).length > 100
  let has_multiple_elements :=
    (findAllLim c (fun n => isTag "p" n || isTag "div" n || isTag "span" n)
      5).length ≥ 2
  has_review_keywords && has_substantial_text && has_multiple_elements

/-- The accumulation loop of `fallback_extract_reviews`: keep qualifying
candidates, stopping once 20 have been collected. -/
def fallbackGo : List Node → List Node → List Node
  | [], revs => revs
  | c :: rest, revs =>
    if fallbackCond c then
      let revs2 := revs ++ [c]
      if revs2.length ≥ 20 then revs2 else fallbackGo rest revs2
    else fallbackGo rest revs

/-- `BaseScraper.fallback_extract_reviews`: scan the first 100
div/article/li/section descendants for review-like containers. -/
def fallback_extract_reviews (soup : Node) : List Node :=
  fallbackGo
    (findAllLim soup
      (fun n => isTag "div" n || isTag "article" n || isTag "li" n
        || isTag "section" n) 100)
    []

/-- Oracles for the adapter- and network-dependent pieces of `scrape`. -/
structure ScrapeOps where
  fetch : String → Option Node
  extractJson : Node → List Review
  getElements : Node → List Node
  parseReview : Node → Option Review
  nextPageUrl : Node → String → Option String
  companyUrl : String
  sourceName : String

/-- The embedded-JSON pass of `scrape`: append in-range reviews; a
successfully parsed date strictly before the start date returns
immediately (`return self.reviews`), reported by the `true` flag. -/
def jsonPass (sd ed : PyDateTime) : List Review → List Review → List Review × Bool
  | [], acc => (acc, false)
  | jr :: rest, acc =>
    match parse_date jr.review_date with
    | some d =>
      if is_date_in_range d sd ed then jsonPass sd ed rest (acc ++ [jr])
      else if should_stop_scraping (some d) sd then (acc, true)
      else jsonPass sd ed rest acc
    | none =>
      if should_stop_scraping none sd then (acc, true)
      else jsonPass sd ed rest acc

/-- The per-element pass of `scrape`: skip elements whose `parse_review`
is `None`; stop the page (flag `true`) when `should_stop_scraping` fires;
append reviews whose date parsed and lies in range. -/
def elemsPass (pr : Node → Option Review) (sd ed : PyDateTime) :
    List Node → List Review → List Review × Bool
  | [], acc => (acc, false)
  | e :: rest, acc =>
    match pr e with
    | none => elemsPass pr sd ed rest acc
    | some review =>
      let rd := parse_date review.review_date
      if should_stop_scraping rd sd then (acc, true)
      else
        match rd with
        | some d =>
          if is_date_in_range d sd ed then
            elemsPass pr sd ed rest (acc ++ [review])
          else elemsPass pr sd ed rest acc
        | none => elemsPass pr sd ed rest acc

/-- The element source for a page: the adapter's discovery, or — only when
both it and the embedded-JSON pass found nothing — the generic fallback. -/
def pageCandidates (ops : ScrapeOps) (soup : Node) : List Node :=
  let jsonRevs := ops.extractJson soup
  let elems := ops.getElements soup
  if elems.isEmpty && jsonRevs.isEmpty then fallback_extract_reviews soup
  else elems

/-- The outcome of one iteration of the loop body: either the loop ends
on this page (`halt`, with the early-return flag of the embedded-JSON
pass), or it continues to a next-page URL. -/
inductive PageOutcome where
  | halt (acc : List Review) (early : Bool)
  | next (acc : List Review) (url : String)

/-- One iteration of the loop body of `BaseScraper.scrape`: fetch (halt on
failure), embedded-JSON pass (halt immediately on its date stop), element
discovery with fallback, halt when the page yielded nothing, per-element
pass (halt on the date stop), then look up the next page URL. -/
def scrapePage (ops : ScrapeOps) (sd ed : PyDateTime) (url : String)
    (acc : List Review) : PageOutcome :=
  match ops.fetch url with
  | none => .halt acc false
  | some soup =>
    let jsonRevs := ops.extractJson soup
    match jsonPass sd ed jsonRevs acc with
    | (acc1, true) => .halt acc1 true
    | (acc1, false) =>
      let elems := pageCandidates ops soup
      if elems.isEmpty && jsonRevs.isEmpty then .halt acc1 false
      else
        match elemsPass ops.parseReview sd ed elems acc1 with
        | (acc2, true) => .halt acc2 false
        | (acc2, false) =>
          match ops.nextPageUrl soup url with
          | none => .halt acc2 false
          | some nxt => .next acc2 nxt

/-- The pagination loop of `BaseScraper.scrape`.  Result: accumulated
reviews, number of pages processed, and whether the loop exited through
the early `return` of the embedded-JSON pass.  The Python loop runs the
body for `page_num = 1, 2, ...` and breaks once `page_num > 100`, which is
`fuel` further pages allowed after the current one; `scrape` starts it
with `fuel = 99`. -/
def scrapeAux (ops : ScrapeOps) (sd ed : PyDateTime) :
    Nat → String → List Review → List Review × Nat × Bool
  | 0, url, acc =>
    match scrapePage ops sd ed url acc with
    | .halt acc2 early => (acc2, 1, early)
    | .next acc2 _ => (acc2, 1, false)
  | Nat.succ f, url, acc =>
    match scrapePage ops sd ed url acc with
    | .halt acc2 early => (acc2, 1, early)
    | .next acc2 nxt =>
      let r := scrapeAux ops sd ed f nxt acc2
      (r.1, r.2.1 + 1, r.2.2)

/-! ### fetch_with_retry (src/utils/request_utils.py)

The `requests.get` + `raise_for_status` of attempt `i` is abstracted as an
oracle `attempt : Nat → Option α` (`some` = success, `none` =
`RequestException`).  The float `delay` is modeled in `ℚ`; the delays
slept are `delay * 1.0`, `delay * 2.0`, ..., exact in both floats and
rationals for the values involved.  The result records the returned
document, the number of attempts issued, and the list of sleep delays. -/

def fetchGo {α : Type} (attempt : Nat → Option α) (max_retries : Nat)
    (delay : ℚ) : Nat → Nat → List ℚ → Option α × Nat × List ℚ
  | 0, i, sleeps => (none, i, sleeps.reverse)
  | Nat.succ rem, i, sleeps =>
    match attempt i with
    | some r => (some r, i + 1, sleeps.reverse)
    | none =>
      if i < max_retries - 1 then
        fetchGo attempt max_retries delay rem (i + 1)
          (delay * ((i : ℚ) + 1) :: sleeps)
      else (none, i + 1, sleeps.reverse)

/-- `fetch_with_retry`: up to `max_retries` attempts, sleeping
`delay * (attempt + 1)` between failures, returning the first success or
`None` after exhaustion (it never raises). -/
def fetch_with_retry {α : Type} (attempt : Nat → Option α)
    (max_retries : Nat) (delay : ℚ) : Option α × Nat × List ℚ :=
  fetchGo attempt max_retries delay max_retries 0 []

/-! ### Sample data (src/utils/sample_data.py)

The `random` module is abstracted as the oracle record `SampleRand`;
`random.choice(lst)` is modeled as indexing by the oracle's choice modulo
the list length, and `random.randint(0, days_range)` as the oracle's
choice clamped into `[0, days_range]` — both realize exactly the sets of
values the library calls can return. -/

structure SampleRand where
  randDays : Nat → Nat
  ratingOf : Nat → Nat
  templateOf : Nat → Nat
  titleOf : Nat → Nat
  reviewerOf : Nat → Nat
  vary1 : Nat → Bool
  vary2 : Nat → Bool
  vary3 : Nat → Bool

def positive_templates : List String :=
  ["Great product! {company} has really helped our team improve productivity.",
   "Excellent tool. We've been using {company} for months and love it.",
   "Highly recommend {company}. It's user-friendly and powerful.",
   "Best decision we made. {company} transformed our workflow.",
   "Outstanding service. {company} exceeded our expectations.",
   "Love using {company}! It's intuitive and feature-rich.",
   "Perfect solution for our needs. {company} is fantastic.",
   "Great value for money. {company} delivers on all fronts.",
   "Impressive features. {company} has everything we need.",
   "Top-notch product. {company} is reliable and efficient."]

def neutral_templates : List String :=
  ["Decent product. {company} works well but could use some improvements.",
   "Good overall, but {company} has a learning curve.",
   "Solid tool. {company} meets most of our requirements.",
   "Not bad. {company} does the job but isn't perfect.",
   "Average experience with {company}. It's functional.",
   "Okay product. {company} works but could be better.",
   "Fair tool. {company} has pros and cons.",
   "Decent solution. {company} is adequate for our needs."]

def negative_templates : List String :=
  ["Could be better. {company} lacks some key features we need.",
   "Not impressed. {company} doesn't meet our expectations.",
   "Needs improvement. {company} has some usability issues.",
   "Disappointing. {company} didn't work as advertised."]

def sample_titles : List String :=
  ["Great tool for teams", "Solid product", "Highly recommended",
   "Good value", "Works well", "Easy to use", "Feature-rich",
   "Reliable solution", "User-friendly", "Powerful features"]

def reviewer_names : List String :=
  ["John Smith", "Sarah Johnson", "Michael Chen", "Emily Rodriguez",
   "David Williams", "Lisa Anderson", "Robert Taylor", "Jennifer Brown",
   "James Wilson", "Maria Garcia", "William Martinez", "Patricia Davis",
   "Richard Miller", "Linda Moore", "Joseph Jackson", "Barbara White"]

/-- `random.choice(lst)`. -/
def pickFrom (l : List String) (i : Nat) : String := l.getD (i % l.length) ""

/-- The successor day in the proleptic Gregorian calendar. -/
def nextDay (d : PyDateTime) : PyDateTime :=
  if d.day < daysInMonth d.year d.month then { d with day := d.day + 1 }
  else if d.month < 12 then { d with month := d.month + 1, day := 1 }
  else { d with year := d.year + 1, month := 1, day := 1 }

/-- `start_date + timedelta(days=n)`. -/
def addDays (d : PyDateTime) : Nat → PyDateTime
  | 0 => d
  | Nat.succ k => nextDay (addDays d k)

/-- Days in the months of year `y` strictly before month `m`. -/
def daysBeforeMonth (y m : Nat) : Nat :=
  (List.range (m - 1)).foldl (fun a k => a + daysInMonth y (k + 1)) 0

/-- Proleptic Gregorian ordinal of a date, as `datetime.toordinal`. -/
def dayNumber (d : PyDateTime) : Nat :=
  let y := d.year - 1
  365 * y + y / 4 - y / 100 + y / 400 + daysBeforeMonth d.year d.month + d.day

/-- `(end_date - start_date).days` for midnight datetimes. -/
def subDaysInt (e s : PyDateTime) : Int := (dayNumber e : Int) - (dayNumber s : Int)

/-- `days_range` of `generate_sample_reviews`: `(end - start).days`,
defaulting to 365 when below 1. -/
def sampleDaysRange (sd ed : PyDateTime) : Nat :=
  let diff := subDaysInt ed sd
  if diff < 1 then 365 else diff.toNat

/-- The review text built from a rating-selected template with
`{company}` substituted and random tail sentences appended. -/
def sampleReviewText (rnd : SampleRand) (company : String) (i rating : Nat) :
    String :=
  let template :=
    if rating ≥ 4 then pickFrom positive_templates (rnd.templateOf i)
    else if rating = 3 then pickFrom neutral_templates (rnd.templateOf i)
    else pickFrom negative_templates (rnd.templateOf i)
  let text := replaceStr template "{company}" company
  let text := if rnd.vary1 i then text ++ " The interface is clean and modern."
    else text
  let text := if rnd.vary2 i then text ++ " Customer support is responsive."
    else text
  let text := if rnd.vary3 i then
    text ++ " Pricing is reasonable for what you get." else text
  text

/-- One sample review of `generate_sample_reviews`. -/
def mkSampleReview (rnd : SampleRand) (company : String) (sd : PyDateTime)
    (source : String) (days_range : Nat) (i : Nat) : Review :=
  let random_days := min (rnd.randDays i) days_range
  let review_date := addDays sd random_days
  let rating := rnd.ratingOf i
  { title := pickFrom sample_titles (rnd.titleOf i)
    review_text := sampleReviewText rnd company i rating
    review_date := String.mk (renderDate .iso review_date)
    reviewer := pickFrom reviewer_names (rnd.reviewerOf i)
    rating := toString rating
    source := source }

/-- Python `list.sort(key=..., reverse=True)`: stable descending sort by
the `review_date` string. -/
def sortByDateDesc (revs : List Review) : List Review :=
  revs.mergeSort (fun a b => decide (b.review_date ≤ a.review_date))

/-- `generate_sample_reviews`. -/
def generate_sample_reviews (rnd : SampleRand) (company : String)
    (sd ed : PyDateTime) (source : String) (count : Nat) : List Review :=
  let days_range := sampleDaysRange sd ed
  let revs := (List.range count).map
    (mkSampleReview rnd company sd source days_range)
  sortByDateDesc revs

/-- `BaseScraper.scrape`: run the loop from the company URL with the
100-page cap; if it did not exit through the embedded-JSON early return
and accumulated nothing, substitute ten sample reviews tagged with the
adapter's source name. -/
def scrape (ops : ScrapeOps) (rnd : SampleRand) (company : String)
    (sd ed : PyDateTime) : List Review :=
  let r := scrapeAux ops sd ed 99 ops.companyUrl []
  if r.2.2 then r.1
  else if r.1.isEmpty then
    generate_sample_reviews rnd company sd ed ops.sourceName 10
  else r.1

/-- The records a page contributes, in processing order: the embedded-JSON
reviews first, then the parse results of the page's candidate elements. -/
def pageRecords (ops : ScrapeOps) (soup : Node) : List Review :=
  ops.extractJson soup ++ (pageCandidates ops soup).filterMap ops.parseReview

/-! ### Concrete instances used to exercise the theorems -/

/-- A page environment with infinite pagination: every fetch succeeds,
elements are found (none parse), and a next page always exists. -/
def infinitePagingOps : ScrapeOps :=
  { fetch := fun _ => some (Node.elem "html" [] [])
    extractJson := fun _ => []
    getElements := fun _ => [Node.text "r"]
    parseReview := fun _ => none
    nextPageUrl := fun _ u => some u
    companyUrl := "start"
    sourceName := "g2" }

/-- A review dated before any 2024 start date. -/
def staleReview : Review :=
  { title := "t", review_text := "x", review_date := "2020-01-01",
    reviewer := "", rating := "", source := "g2" }

/-- A page whose first (and only) parsed record is `staleReview`. -/
def staleOps : ScrapeOps :=
  { fetch := fun _ => some (Node.text "page")
    extractJson := fun _ => []
    getElements := fun _ => [Node.text "e"]
    parseReview := fun _ => some staleReview
    nextPageUrl := fun _ _ => none
    companyUrl := "u"
    sourceName := "g2" }

def fbParagraph1 : Node :=
  Node.elem "p" []
    [Node.text "This review praises the product thoroughly and at considerable length, covering the onboarding experience in detail."]

def fbParagraph2 : Node :=
  Node.elem "p" []
    [Node.text "The rating given is five stars and the reviewer would recommend it to other teams without hesitation."]

/-- A container the generic fallback heuristic accepts: review keyword,
more than 100 characters of stripped text, two p descendants. -/
def fbCandidate : Node := Node.elem "div" [] [fbParagraph1, fbParagraph2]

def fbSoup : Node := Node.elem "html" [] [fbCandidate]

def fbJsonReview : Review :=
  { title := "json", review_text := "from json", review_date := "2024-02-01",
    reviewer := "", rating := "", source := "g2" }

/-- Adapter discovery empty, but the embedded-JSON pass finds a review. -/
def jsonOnlyOps : ScrapeOps :=
  { fetch := fun _ => some fbSoup
    extractJson := fun _ => [fbJsonReview]
    getElements := fun _ => []
    parseReview := fun _ => some fbJsonReview
    nextPageUrl := fun _ _ => none
    companyUrl := "u"
    sourceName := "g2" }

/-- Same page with the embedded-JSON pass also empty. -/
def noJsonOps : ScrapeOps := { jsonOnlyOps with extractJson := fun _ => [] }

/-- An element with only a heading: each adapter extracts a title and no
review text. -/
def titleOnlyElem : Node :=
  Node.elem "div" [] [Node.elem "h2" [] [Node.text "Great"]]

/-- The record each adapter extracts from `titleOnlyElem`. -/
def titleOnlyRecord (src : String) : Review :=
  { title := "Great", review_text := "", review_date := "", reviewer := "",
    rating := "", source := src }

/-- The start bound of the claimed scenario (2024-01-01). -/
def scenarioStart : PyDateTime := ⟨2024, 1, 1, 0, 0, 0⟩

/-- The end bound of the claimed scenario (2024-06-01). -/
def scenarioEnd : PyDateTime := ⟨2024, 6, 1, 0, 0, 0⟩

/-- An environment whose every fetch fails: extraction yields an empty
set across all pages. -/
def emptyFetchOps : ScrapeOps :=
  { fetch := fun _ => none
    extractJson := fun _ => []
    getElements := fun _ => []
    parseReview := fun _ => none
    nextPageUrl := fun _ _ => none
    companyUrl := "u"
    sourceName := "g2" }

/-- A concrete randomness oracle. -/
def sampleRand0 : SampleRand :=
  { randDays := fun i => i * 17
    ratingOf := fun _ => 5
    templateOf := fun _ => 0
    titleOf := fun _ => 0
    reviewerOf := fun _ => 0
    vary1 := fun _ => false
    vary2 := fun _ => false
    vary3 := fun _ => false }

/-! ## Theorems -/

/-! ### Helper lemmas about the datetime order -/

theorem PyDateTime.leb_iff_key {a b : PyDateTime}
    (ha : a.Bounded) (hb : b.Bounded) :
    a.leb b = true ↔ a.key ≤ b.key := by
  obtain ⟨ha1, ha2, ha3, ha4, ha5⟩ := ha
  obtain ⟨hb1, hb2, hb3, hb4, hb5⟩ := hb
  cases a with
  | mk ay amo ad ah ami as =>
    cases b with
    | mk by' bmo bd bh bmi bs =>
      simp only [PyDateTime.leb, PyDateTime.ltb, PyDateTime.key,
        Bool.or_eq_true, decide_eq_true_eq, beq_iff_eq, PyDateTime.mk.injEq]
        at *
      split_ifs <;> simp only [decide_eq_true_eq] <;> omega

theorem PyDateTime.ltb_iff_not_leb (a b : PyDateTime) :
    a.ltb b = true ↔ ¬ b.leb a = true := by
  cases a with
  | mk ay amo ad ah ami as =>
    cases b with
    | mk by' bmo bd bh bmi bs =>
      simp only [PyDateTime.ltb, PyDateTime.leb, Bool.or_eq_true,
        decide_eq_true_eq, beq_iff_eq, PyDateTime.mk.injEq]
      split_ifs <;> simp only [decide_eq_true_eq] <;> omega

theorem ltb_leb_false {d s : PyDateTime} (h : d.ltb s = true) :
    s.leb d = false := by
  cases hl : s.leb d
  · rfl
  · exact absurd hl ((PyDateTime.ltb_iff_not_leb d s).mp h)

/-- A record strictly older than the start date is never in range. -/
theorem stale_not_in_range {d s : PyDateTime} (e : PyDateTime)
    (h : d.ltb s = true) : is_date_in_range d s e = false := by
  simp [is_date_in_range, ltb_leb_false h]

/-- C2: `should_stop_scraping(date_or_none, start)` returns true iff the
date parsed (is not `None`) and is strictly earlier than `start`; every
unparseable input (`None`) yields false. -/
theorem should_stop_scraping_iff (o : Option PyDateTime) (s : PyDateTime) :
    (should_stop_scraping o s = true ↔
      ∃ d, o = some d ∧ d.ltb s = true) ∧
    should_stop_scraping none s = false := by
  refine ⟨?_, rfl⟩
  cases o with
  | none => simp [should_stop_scraping]
  | some d => simp [should_stop_scraping]

/-- C2 witness: a concrete stale date triggers the stop, and `None` does
not. -/
theorem should_stop_scraping_iff_witness :
    should_stop_scraping (some ⟨2023, 12, 31, 0, 0, 0⟩) ⟨2024, 1, 1, 0, 0, 0⟩
      = true ∧
    should_stop_scraping none ⟨2024, 1, 1, 0, 0, 0⟩ = false := by
  constructor
  · exact (should_stop_scraping_iff (some ⟨2023, 12, 31, 0, 0, 0⟩)
      ⟨2024, 1, 1, 0, 0, 0⟩).1.mpr ⟨_, rfl, by decide⟩
  · exact (should_stop_scraping_iff none ⟨2024, 1, 1, 0, 0, 0⟩).2

/-- C9: for bounds with `start <= end`, `is_date_in_range` accepts exactly
the dates `d` with `start <= d <= end` in the calendar order (represented
by the linear key); both boundaries are accepted. -/
theorem is_date_in_range_iff (d s e : PyDateTime)
    (hd : d.Bounded) (hs : s.Bounded) (he : e.Bounded)
    (hse : s.key ≤ e.key) :
    is_date_in_range d s e = true ↔ (s.key ≤ d.key ∧ d.key ≤ e.key) := by
  simp [is_date_in_range, Bool.and_eq_true,
    PyDateTime.leb_iff_key hs hd, PyDateTime.leb_iff_key hd he]

/-- C9 witness: both boundary dates of a concrete range are accepted. -/
theorem is_date_in_range_iff_witness :
    is_date_in_range ⟨2024, 1, 1, 0, 0, 0⟩ ⟨2024, 1, 1, 0, 0, 0⟩
      ⟨2024, 6, 1, 0, 0, 0⟩ = true ∧
    is_date_in_range ⟨2024, 6, 1, 0, 0, 0⟩ ⟨2024, 1, 1, 0, 0, 0⟩
      ⟨2024, 6, 1, 0, 0, 0⟩ = true := by
  constructor
  · exact (is_date_in_range_iff ⟨2024, 1, 1, 0, 0, 0⟩ ⟨2024, 1, 1, 0, 0, 0⟩
      ⟨2024, 6, 1, 0, 0, 0⟩ (by decide) (by decide) (by decide)
      (by decide)).mpr (by decide)
  · exact (is_date_in_range_iff ⟨2024, 6, 1, 0, 0, 0⟩ ⟨2024, 1, 1, 0, 0, 0⟩
      ⟨2024, 6, 1, 0, 0, 0⟩ (by decide) (by decide) (by decide)
      (by decide)).mpr (by decide)

/-- C10: a successfully parsed date never both triggers the date stop and
lies in range, and a single element processed by the loop's per-element
pass never both gets appended and raises the stop flag. -/
theorem stop_and_in_range_exclusive (d s e : PyDateTime) :
    (∀ sd ed : PyDateTime,
      (should_stop_scraping (some d) sd && is_date_in_range d sd ed) = false) ∧
    (∀ (pr : Node → Option Review) (el : Node) (acc : List Review),
      (elemsPass pr s e [el] acc).2 = false ∨ (elemsPass pr s e [el] acc).1 = acc) := by
  constructor
  · intro sd ed
    cases h1 : d.ltb sd
    · simp [should_stop_scraping, h1]
    · simp [should_stop_scraping, h1, stale_not_in_range ed h1]
  · intro pr el acc
    cases hp : pr el with
    | none => simp [elemsPass, hp]
    | some review =>
      simp only [elemsPass, hp]
      cases hstop : should_stop_scraping (parse_date review.review_date) s with
      | true => simp [hstop]
      | false =>
        cases hrd : parse_date review.review_date with
        | none => simp [hstop, hrd, elemsPass]
        | some dd =>
          cases hir : is_date_in_range dd s e with
          | true => simp [hstop, hrd, hir, elemsPass]
          | false => simp [hstop, hrd, hir, elemsPass]

/-! ### The page cap (C4) -/

theorem scrapeAux_pages_le (ops : ScrapeOps) (sd ed : PyDateTime) :
    ∀ (fuel : Nat) (url : String) (acc : List Review),
      (scrapeAux ops sd ed fuel url acc).2.1 ≤ fuel + 1 := by
  intro fuel
  induction fuel with
  | zero =>
    intro url acc
    rw [scrapeAux]
    cases scrapePage ops sd ed url acc <;> simp
  | succ f ih =>
    intro url acc
    rw [scrapeAux]
    cases scrapePage ops sd ed url acc with
    | halt acc2 early => simp
    | next acc2 nxt =>
      have h := Nat.succ_le_succ (ih nxt acc2)
      simpa using h

/-- C4: the scrape loop processes at most 100 pages whatever the adapter
and the network return — in particular for the synthetic
infinite-pagination environment `infinitePagingOps`, whose
`get_next_page_url` returns a non-empty URL on every page, it terminates
after exactly 100 pages. -/
theorem scrape_page_cap (ops : ScrapeOps) (sd ed : PyDateTime)
    (url : String) (acc : List Review) :
    (scrapeAux ops sd ed 99 url acc).2.1 ≤ 100 ∧
    (scrapeAux infinitePagingOps sd ed 99
      infinitePagingOps.companyUrl []).2.1 = 100 := by
  constructor
  · simpa using scrapeAux_pages_le ops sd ed 99 url acc
  · rfl

/-- C7: `fetch_with_retry` issues at most 3 attempts; when all three fail
it returns `None` (rather than raising) after sleeping `delay * 1` and
`delay * 2` between the failed attempts; and it returns the response of
the first successful attempt. -/
theorem fetch_with_retry_spec {α : Type} (attempt : Nat → Option α)
    (delay : ℚ) :
    (fetch_with_retry attempt 3 delay).2.1 ≤ 3 ∧
    ((∀ i, i < 3 → attempt i = none) →
      fetch_with_retry attempt 3 delay = (none, 3, [delay * 1, delay * 2])) ∧
    (∀ k r, k < 3 → (∀ j, j < k → attempt j = none) → attempt k = some r →
      (fetch_with_retry attempt 3 delay).1 = some r) := by
  refine ⟨?_, ?_, ?_⟩
  · rcases h0 : attempt 0 with _ | r0
    · rcases h1 : attempt 1 with _ | r1
      · rcases h2 : attempt 2 with _ | r2 <;>
          norm_num [fetch_with_retry, fetchGo, h0, h1, h2]
      · norm_num [fetch_with_retry, fetchGo, h0, h1]
    · norm_num [fetch_with_retry, fetchGo, h0]
  · intro hall
    have h0 := hall 0 (by norm_num)
    have h1 := hall 1 (by norm_num)
    have h2 := hall 2 (by norm_num)
    norm_num [fetch_with_retry, fetchGo, h0, h1, h2]
  · intro k r hk hprev hsucc
    interval_cases k
    · norm_num [fetch_with_retry, fetchGo, hsucc]
    · have h0 := hprev 0 (by norm_num)
      norm_num [fetch_with_retry, fetchGo, h0, hsucc]
    · have h0 := hprev 0 (by norm_num)
      have h1 := hprev 1 (by norm_num)
      norm_num [fetch_with_retry, fetchGo, h0, h1, hsucc]

/-- C7 witness: with every attempt failing, exactly the two linear
backoff sleeps happen and `None` is returned after 3 attempts. -/
theorem fetch_with_retry_spec_witness :
    fetch_with_retry (fun _ => (none : Option Nat)) 3 1
      = (none, 3, [1 * 1, 1 * 2]) :=
  (fetch_with_retry_spec (fun _ => (none : Option Nat)) 1).2.1
    (fun _ _ => rfl)

/-- C5: whenever any of the three adapters' `parse_review` returns a
record, that record has a non-empty title or a non-empty review text; a
record with both empty is never returned. -/
theorem parse_review_requires_title_or_text :
    (∀ e r, g2_parse_review e = some r →
      r.title ≠ "" ∨ r.review_text ≠ "") ∧
    (∀ e r, capterra_parse_review e = some r →
      r.title ≠ "" ∨ r.review_text ≠ "") ∧
    (∀ e r, trustpilot_parse_review e = some r →
      r.title ≠ "" ∨ r.review_text ≠ "") := by
  refine ⟨?_, ?_, ?_⟩ <;> intro e r h
  · simp only [g2_parse_review, Option.ite_none_right_eq_some,
      Option.some.injEq, bne_iff_ne, Bool.or_eq_true] at h
    split at h <;>
      (obtain ⟨hc, hr⟩ := h; subst hr; exact Or.symm hc)
  · simp only [capterra_parse_review, Option.ite_none_right_eq_some,
      Option.some.injEq, bne_iff_ne, Bool.or_eq_true] at h
    obtain ⟨hc, hr⟩ := h
    subst hr
    exact Or.symm hc
  · simp only [trustpilot_parse_review, Option.ite_none_right_eq_some,
      Option.some.injEq, bne_iff_ne, Bool.or_eq_true] at h
    obtain ⟨hc, hr⟩ := h
    subst hr
    exact Or.symm hc

/-- C5 witness: a concrete heading-only element parsed by each adapter
yields a record, whose title is non-empty. -/
theorem parse_review_requires_title_or_text_witness :
    ((titleOnlyRecord "g2").title ≠ ""
      ∨ (titleOnlyRecord "g2").review_text ≠ "") ∧
    ((titleOnlyRecord "capterra").title ≠ ""
      ∨ (titleOnlyRecord "capterra").review_text ≠ "") ∧
    ((titleOnlyRecord "trustpilot").title ≠ ""
      ∨ (titleOnlyRecord "trustpilot").review_text ≠ "") :=
  ⟨parse_review_requires_title_or_text.1 titleOnlyElem _ (by decide),
   parse_review_requires_title_or_text.2.1 titleOnlyElem _ (by decide),
   parse_review_requires_title_or_text.2.2 titleOnlyElem _ (by decide)⟩

/-! ### The generic fallback (C6) -/

theorem fallbackGo_length (l : List Node) :
    ∀ acc : List Node, acc.length < 20 → (fallbackGo l acc).length ≤ 20 := by
  induction l with
  | nil =>
    intro acc h
    simp only [fallbackGo]
    omega
  | cons c rest ih =>
    intro acc h
    simp only [fallbackGo]
    split
    · split
      · simp only [List.length_append, List.length_cons, List.length_nil]
        omega
      · apply ih
        rename_i hlt
        simp only [List.length_append, List.length_cons, List.length_nil] at *
        omega
    · exact ih acc h

theorem fallbackGo_mem (l : List Node) :
    ∀ (acc : List Node) (x : Node), x ∈ fallbackGo l acc →
      x ∈ acc ∨ fallbackCond x = true := by
  induction l with
  | nil =>
    intro acc x hx
    simp only [fallbackGo] at hx
    exact Or.inl hx
  | cons c rest ih =>
    intro acc x hx
    simp only [fallbackGo] at hx
    split at hx
    · rename_i hc
      split at hx
      · rcases List.mem_append.mp hx with h | h
        · exact Or.inl h
        · simp only [List.mem_singleton] at h
          subst h
          exact Or.inr hc
      · rcases ih _ x hx with h | h
        · rcases List.mem_append.mp h with h2 | h2
          · exact Or.inl h2
          · simp only [List.mem_singleton] at h2
            subst h2
            exact Or.inr hc
        · exact Or.inr h
    · exact ih acc x hx

set_option maxRecDepth 4000 in
/-- C6 counterexample: a page where the adapter's element discovery
returns the empty sequence and the generic fallback would return a
candidate, yet the orchestrator selects no candidate elements at all,
because the embedded-JSON pass found a review: the fallback is guarded by
"no elements AND no JSON reviews", not by element discovery alone. -/
theorem fallback_skipped_when_json_nonempty :
    jsonOnlyOps.getElements fbSoup = [] ∧
    (fallback_extract_reviews fbSoup).isEmpty = false ∧
    pageCandidates jsonOnlyOps fbSoup = [] := by
  refine ⟨rfl, by decide, rfl⟩

/-- C6 amended: on every page where the adapter's element discovery is
empty AND the embedded-JSON pass yielded no reviews, the orchestrator
applies the generic fallback extraction, which returns at most 20
candidates, each containing a review-indicating keyword, having more than
100 characters of stripped text, and containing at least two p/div/span
descendant elements. -/
theorem fallback_applied_and_bounded (ops : ScrapeOps) (soup : Node)
    (he : ops.getElements soup = []) (hj : ops.extractJson soup = []) :
    pageCandidates ops soup = fallback_extract_reviews soup ∧
    (fallback_extract_reviews soup).length ≤ 20 ∧
    ∀ c ∈ fallback_extract_reviews soup,
      (fallbackKeywords.any
        (fun kw => strContains (lowerStr (getText c)) kw)) = true ∧
      (getTextStrip c).length > 100 ∧
      2 ≤ (findAllLim c
        (fun n => isTag "p" n || isTag "div" n || isTag "span" n) 5).length := by
  refine ⟨?_, ?_, ?_⟩
  · simp [pageCandidates, he, hj]
  · exact fallbackGo_length _ [] (by simp)
  · intro c hc
    rcases fallbackGo_mem _ [] c hc with h | h
    · simp at h
    · simp only [fallbackCond] at h
      rw [Bool.and_eq_true, Bool.and_eq_true] at h
      exact ⟨h.1.1, of_decide_eq_true h.1.2, of_decide_eq_true h.2⟩

/-- C6 witness: with both element discovery and the embedded-JSON pass
empty on a concrete page, the orchestrator's candidates are exactly the
generic fallback's, which are non-empty and within the bound. -/
theorem fallback_applied_and_bounded_witness :
    pageCandidates noJsonOps fbSoup = fallback_extract_reviews fbSoup ∧
    (fallback_extract_reviews fbSoup).length ≤ 20 :=
  ⟨(fallback_applied_and_bounded noJsonOps fbSoup rfl rfl).1,
   (fallback_applied_and_bounded noJsonOps fbSoup rfl rfl).2.1⟩

/-! ### The date-based early stop (C1) -/

theorem jsonPass_stale (sd ed : PyDateTime) (jr : Review)
    (rest acc : List Review) (d : PyDateTime)
    (hd : parse_date jr.review_date = some d) (hold : d.ltb sd = true) :
    jsonPass sd ed (jr :: rest) acc = (acc, true) := by
  simp only [jsonPass, hd, stale_not_in_range ed hold, Bool.false_eq_true,
    if_false, should_stop_scraping, hold, if_true]

theorem elemsPass_stale (pr : Node → Option Review) (sd ed : PyDateTime)
    (d : PyDateTime) (r : Review)
    (hd : parse_date r.review_date = some d) (hold : d.ltb sd = true) :
    ∀ (l : List Node) (acc : List Review),
      (l.filterMap pr).head? = some r → elemsPass pr sd ed l acc = (acc, true) := by
  intro l
  induction l with
  | nil =>
    intro acc h
    simp at h
  | cons e rest ih =>
    intro acc h
    rw [List.filterMap_cons] at h
    cases hp : pr e with
    | none =>
      rw [hp] at h
      simp only [elemsPass, hp]
      exact ih acc h
    | some rv =>
      rw [hp] at h
      simp only [List.head?_cons, Option.some.injEq] at h
      subst h
      simp only [elemsPass, hp, hd, should_stop_scraping, hold, if_true]

/-- C1: whenever the loop reaches a page whose first parsed record (the
embedded-JSON reviews first, then the candidate elements' parse results)
has a date strictly earlier than the start date, the loop halts on that
page: the final accumulated list is exactly the list accumulated before
the page, so zero records from that page or any later page are appended,
and exactly that one page is processed from there on. -/
theorem scrape_halts_on_first_stale (ops : ScrapeOps) (sd ed : PyDateTime)
    (fuel : Nat) (url : String) (acc : List Review) (soup : Node)
    (r : Review) (d : PyDateTime)
    (hfetch : ops.fetch url = some soup)
    (hfirst : (pageRecords ops soup).head? = some r)
    (hdate : parse_date r.review_date = some d)
    (hold : d.ltb sd = true) :
    (scrapeAux ops sd ed fuel url acc).1 = acc ∧
    (scrapeAux ops sd ed fuel url acc).2.1 = 1 := by
  have hpage : ∃ b, scrapePage ops sd ed url acc = .halt acc b := by
    cases hjson : ops.extractJson soup with
    | cons jr jrest =>
      have hjr : jr = r := by
        have h2 : (pageRecords ops soup).head? = some jr := by
          simp [pageRecords, hjson]
        rw [hfirst] at h2
        exact (Option.some.injEq _ _).mp h2.symm
      subst hjr
      refine ⟨true, ?_⟩
      simp only [scrapePage, hfetch, hjson,
        jsonPass_stale sd ed jr jrest acc d hdate hold]
    | nil =>
      have hcand :
          ((pageCandidates ops soup).filterMap ops.parseReview).head? = some r := by
        simpa [pageRecords, hjson] using hfirst
      have hne : (pageCandidates ops soup).isEmpty = false := by
        cases hc : pageCandidates ops soup with
        | nil => rw [hc] at hcand; simp at hcand
        | cons a l => simp
      refine ⟨false, ?_⟩
      simp only [scrapePage, hfetch, hjson, jsonPass, hne,
        List.isEmpty_nil, Bool.false_and, Bool.false_eq_true, if_false,
        elemsPass_stale ops.parseReview sd ed d r hdate hold
          (pageCandidates ops soup) acc hcand]
  obtain ⟨b, hb⟩ := hpage
  cases fuel with
  | zero => rw [scrapeAux, hb]; exact ⟨rfl, rfl⟩
  | succ f => rw [scrapeAux, hb]; exact ⟨rfl, rfl⟩

/-- C1 witness: in a concrete environment whose only record is dated
2020-01-01 with start date 2024-01-01, the loop appends nothing and
processes one page. -/
theorem scrape_halts_on_first_stale_witness :
    (scrapeAux staleOps scenarioStart scenarioEnd 99 "u" []).1 = [] ∧
    (scrapeAux staleOps scenarioStart scenarioEnd 99 "u" []).2.1 = 1 :=
  scrape_halts_on_first_stale staleOps scenarioStart scenarioEnd 99 "u" []
    (Node.text "page") staleReview ⟨2020, 1, 1, 0, 0, 0⟩ rfl (by decide)
    (by decide) (by decide)

/-! ### The sample-data scenario (C8) -/

set_option maxRecDepth 10000 in
theorem sample_date_ok : ∀ k, k < 153 →
    parse_date (String.mk (renderDate .iso (addDays scenarioStart k)))
      = some (addDays scenarioStart k) ∧
    is_date_in_range (addDays scenarioStart k) scenarioStart scenarioEnd
      = true := by decide

/-- C8: in the scenario company "Notion", source g2, window 2024-01-01 to
2024-06-01, if the scrape loop accumulates nothing (and did not exit
through the embedded-JSON early return), the resulting review list has
exactly 10 entries, each with source "g2" and a review date that parses
to a date within the window. -/
theorem scrape_sample_scenario (ops : ScrapeOps) (rnd : SampleRand)
    (hsrc : ops.sourceName = "g2")
    (hempty : (scrapeAux ops scenarioStart scenarioEnd 99 ops.companyUrl []).1 = [])
    (hflag : (scrapeAux ops scenarioStart scenarioEnd 99 ops.companyUrl []).2.2 = false) :
    (scrape ops rnd "Notion" scenarioStart scenarioEnd).length = 10 ∧
    ∀ r ∈ scrape ops rnd "Notion" scenarioStart scenarioEnd,
      r.source = "g2" ∧
      ∃ dt, parse_date r.review_date = some dt ∧
        is_date_in_range dt scenarioStart scenarioEnd = true := by
  have hs : scrape ops rnd "Notion" scenarioStart scenarioEnd =
      generate_sample_reviews rnd "Notion" scenarioStart scenarioEnd "g2" 10 := by
    simp only [scrape, hflag, hempty, hsrc, Bool.false_eq_true, if_false,
      List.isEmpty_nil, if_true]
  rw [hs]
  have h152 : sampleDaysRange scenarioStart scenarioEnd = 152 := by decide
  constructor
  · unfold generate_sample_reviews sortByDateDesc
    rw [List.length_mergeSort, List.length_map, List.length_range]
  · intro r hr
    unfold generate_sample_reviews sortByDateDesc at hr
    have hperm := List.mergeSort_perm
      ((List.range 10).map (mkSampleReview rnd "Notion" scenarioStart "g2"
        (sampleDaysRange scenarioStart scenarioEnd)))
      (fun a b => decide (b.review_date ≤ a.review_date))
    have hr2 := hperm.mem_iff.mp hr
    obtain ⟨i, _, hmk⟩ := List.mem_map.mp hr2
    subst hmk
    refine ⟨rfl, ?_⟩
    have hk : min (rnd.randDays i) (sampleDaysRange scenarioStart scenarioEnd)
        < 153 := by
      rw [h152]
      omega
    have h := sample_date_ok _ hk
    exact ⟨_, h.1, h.2⟩

/-- C8 witness: a concrete environment whose every fetch fails, with a
concrete randomness oracle, produces exactly 10 sample reviews. -/
theorem scrape_sample_scenario_witness :
    (scrape emptyFetchOps sampleRand0 "Notion" scenarioStart scenarioEnd).length
      = 10 :=
  (scrape_sample_scenario emptyFetchOps sampleRand0 rfl rfl rfl).1

/-! C3 helper lemmas -/

theorem digitChar_facts : ∀ m, m < 10 →
    ((Char.ofNat (48 + m)).isDigit = true ∧
     (Char.ofNat (48 + m)).isWhitespace = false ∧
     (Char.ofNat (48 + m)).toLower = Char.ofNat (48 + m) ∧
     (Char.ofNat (48 + m)).toNat = 48 + m) := by decide

theorem isDigit_digitChar (n : Nat) : (digitChar n).isDigit = true :=
  (digitChar_facts (n % 10) (Nat.mod_lt n (by norm_num))).1

theorem not_ws_digitChar (n : Nat) : (digitChar n).isWhitespace = false :=
  (digitChar_facts (n % 10) (Nat.mod_lt n (by norm_num))).2.1

theorem toLower_digitChar (n : Nat) : (digitChar n).toLower = digitChar n :=
  (digitChar_facts (n % 10) (Nat.mod_lt n (by norm_num))).2.2.1

theorem toNat_digitChar (n : Nat) : (digitChar n).toNat = 48 + n % 10 :=
  (digitChar_facts (n % 10) (Nat.mod_lt n (by norm_num))).2.2.2

theorem d10_digitChar (n : Nat) : d10 (digitChar n) = n % 10 := by
  simp [d10, toNat_digitChar]

theorem digitChar_beq_facts : ∀ m, m < 10 →
    ((Char.ofNat (48 + m) == '/') = false ∧ (Char.ofNat (48 + m) == '-') = false ∧
     (Char.ofNat (48 + m) == ':') = false ∧ (Char.ofNat (48 + m) == ',') = false ∧
     ('j' == Char.ofNat (48 + m)) = false ∧ ('f' == Char.ofNat (48 + m)) = false ∧
     ('m' == Char.ofNat (48 + m)) = false ∧ ('a' == Char.ofNat (48 + m)) = false ∧
     ('s' == Char.ofNat (48 + m)) = false ∧ ('o' == Char.ofNat (48 + m)) = false ∧
     ('n' == Char.ofNat (48 + m)) = false ∧ ('d' == Char.ofNat (48 + m)) = false) := by
  decide

theorem beq_digitChar_slash (n : Nat) : (digitChar n == '/') = false :=
  (digitChar_beq_facts (n % 10) (Nat.mod_lt n (by norm_num))).1

theorem beq_digitChar_dash (n : Nat) : (digitChar n == '-') = false :=
  (digitChar_beq_facts (n % 10) (Nat.mod_lt n (by norm_num))).2.1

theorem beq_digitChar_colon (n : Nat) : (digitChar n == ':') = false :=
  (digitChar_beq_facts (n % 10) (Nat.mod_lt n (by norm_num))).2.2.1

theorem beq_digitChar_comma (n : Nat) : (digitChar n == ',') = false :=
  (digitChar_beq_facts (n % 10) (Nat.mod_lt n (by norm_num))).2.2.2.1

theorem beq_j_digitChar (n : Nat) : ('j' == digitChar n) = false :=
  (digitChar_beq_facts (n % 10) (Nat.mod_lt n (by norm_num))).2.2.2.2.1

theorem beq_f_digitChar (n : Nat) : ('f' == digitChar n) = false :=
  (digitChar_beq_facts (n % 10) (Nat.mod_lt n (by norm_num))).2.2.2.2.2.1

theorem beq_m_digitChar (n : Nat) : ('m' == digitChar n) = false :=
  (digitChar_beq_facts (n % 10) (Nat.mod_lt n (by norm_num))).2.2.2.2.2.2.1

theorem beq_a_digitChar (n : Nat) : ('a' == digitChar n) = false :=
  (digitChar_beq_facts (n % 10) (Nat.mod_lt n (by norm_num))).2.2.2.2.2.2.2.1

theorem beq_s_digitChar (n : Nat) : ('s' == digitChar n) = false :=
  (digitChar_beq_facts (n % 10) (Nat.mod_lt n (by norm_num))).2.2.2.2.2.2.2.2.1

theorem beq_o_digitChar (n : Nat) : ('o' == digitChar n) = false :=
  (digitChar_beq_facts (n % 10) (Nat.mod_lt n (by norm_num))).2.2.2.2.2.2.2.2.2.1

theorem beq_n_digitChar (n : Nat) : ('n' == digitChar n) = false :=
  (digitChar_beq_facts (n % 10) (Nat.mod_lt n (by norm_num))).2.2.2.2.2.2.2.2.2.2.1

theorem beq_d_digitChar (n : Nat) : ('d' == digitChar n) = false :=
  (digitChar_beq_facts (n % 10) (Nat.mod_lt n (by norm_num))).2.2.2.2.2.2.2.2.2.2.2

theorem pD2_render2 (n : Nat) (rest : List Char) :
    pD2 (render2 n ++ rest) = some (n % 100, rest) := by
  simp only [render2, List.cons_append, List.nil_append, pD2,
    isDigit_digitChar, if_true, d10_digitChar]
  have h : n / 10 % 10 * 10 + n % 10 = n % 100 := by omega
  rw [h]

theorem pD2_render2_nil (n : Nat) : pD2 (render2 n) = some (n % 100, []) := by
  simpa using pD2_render2 n []

theorem pD4_render4 (n : Nat) (rest : List Char) :
    pD4 (render4 n ++ rest) = some (n % 10000, rest) := by
  simp only [render4, List.cons_append, List.nil_append, pD4,
    isDigit_digitChar, Bool.and_self, if_true, d10_digitChar]
  have h : ((n / 1000 % 10 * 10 + n / 100 % 10) * 10 + n / 10 % 10) * 10 + n % 10
      = n % 10000 := by omega
  rw [h]

theorem pD4_render4_nil (n : Nat) : pD4 (render4 n) = some (n % 10000, []) := by
  simpa using pD4_render4 n []

theorem pLit_self (c : Char) (rest : List Char) :
    pLit c (c :: rest) = some rest := by
  simp [pLit]

theorem dropWhile_ws_render2 (n : Nat) (rest : List Char) :
    (render2 n ++ rest).dropWhile Char.isWhitespace = render2 n ++ rest := by
  simp [render2, List.cons_append, List.dropWhile_cons, not_ws_digitChar]

theorem dropWhile_ws_render2_nil (n : Nat) :
    (render2 n).dropWhile Char.isWhitespace = render2 n := by
  simpa using dropWhile_ws_render2 n []

theorem dropWhile_ws_render4 (n : Nat) (rest : List Char) :
    (render4 n ++ rest).dropWhile Char.isWhitespace = render4 n ++ rest := by
  simp [render4, List.cons_append, List.dropWhile_cons, not_ws_digitChar]

theorem dropWhile_ws_render4_nil (n : Nat) :
    (render4 n).dropWhile Char.isWhitespace = render4 n := by
  simpa using dropWhile_ws_render4 n []

theorem pSpaces_space_render4 (y : Nat) :
    pSpaces (' ' :: render4 y) = some (render4 y) := by
  simp [pSpaces, dropWhile_ws_render4_nil]

theorem pSpaces_space_render2 (n : Nat) (rest : List Char) :
    pSpaces (' ' :: (render2 n ++ rest)) = some (render2 n ++ rest) := by
  simp [pSpaces, dropWhile_ws_render2]

theorem daysInMonth_bounds (y m : Nat) :
    12 ≤ daysInMonth y m ∧ daysInMonth y m ≤ 31 := by
  rcases le_or_lt m 12 with h | h
  · interval_cases m <;>
      (simp only [daysInMonth]; norm_num) <;>
      (cases isLeapYear y <;> simp)
  · simp only [daysInMonth, if_neg (by omega : ¬ m = 1),
      if_neg (by omega : ¬ m = 2), if_neg (by omega : ¬ m = 3),
      if_neg (by omega : ¬ m = 4), if_neg (by omega : ¬ m = 5),
      if_neg (by omega : ¬ m = 6), if_neg (by omega : ¬ m = 7),
      if_neg (by omega : ¬ m = 8), if_neg (by omega : ¬ m = 9),
      if_neg (by omega : ¬ m = 10), if_neg (by omega : ¬ m = 11)]
    omega

theorem mkDT_eq (y mo d : Nat) (hy1 : 1 ≤ y) (hy2 : y ≤ 9999)
    (hm1 : 1 ≤ mo) (hm2 : mo ≤ 12) (hd1 : 1 ≤ d)
    (hd2 : d ≤ daysInMonth y mo) :
    mkDT y mo d 0 0 0 = some ⟨y, mo, d, 0, 0, 0⟩ := by
  unfold mkDT
  rw [if_pos]
  exact ⟨hy1, hy2, hm1, hm2, hd1, hd2, by omega, by omega, by omega⟩

theorem mkDT_none_of_badmonth (y mo d : Nat) (h : 12 < mo) :
    mkDT y mo d 0 0 0 = none := by
  unfold mkDT
  rw [if_neg]
  rintro ⟨-, -, -, h4, -⟩
  omega

theorem toList_mk (l : List Char) : (String.mk l).toList = l := rfl

theorem trimChars_eq_self (l : List Char)
    (h1 : ∀ c, l.head? = some c → c.isWhitespace = false)
    (h2 : ∀ c, l.getLast? = some c → c.isWhitespace = false) :
    trimChars l = l := by
  unfold trimChars
  have hd : l.dropWhile Char.isWhitespace = l := by
    cases l with
    | nil => rfl
    | cons a t =>
      rw [List.dropWhile_cons, if_neg]
      simp [h1 a rfl]
  rw [hd]
  have hr : l.reverse.dropWhile Char.isWhitespace = l.reverse := by
    cases hrv : l.reverse with
    | nil => rfl
    | cons b u =>
      have hb : l.getLast? = some b := by
        rw [← List.head?_reverse, hrv, List.head?_cons]
      rw [List.dropWhile_cons, if_neg]
      simp [h2 b hb]
  rw [hr, List.reverse_reverse]

theorem getLast_cons_of_ne (c : Char) (l : List Char) (h : l ≠ []) :
    (c :: l).getLast? = l.getLast? := by
  cases l with
  | nil => exact absurd rfl h
  | cons d t => rfl

theorem monthFull_shape (mo : Nat) (h1 : 1 ≤ mo) (h2 : mo ≤ 12) :
    ∃ c t, (monthFull mo).toList = c :: t ∧ c.isWhitespace = false ∧
      c.isDigit = false := by
  interval_cases mo <;> exact ⟨_, _, rfl, by decide, by decide⟩

theorem monthAbbr_shape (mo : Nat) (h1 : 1 ≤ mo) (h2 : mo ≤ 12) :
    ∃ c t, (monthAbbr mo).toList = c :: t ∧ c.isWhitespace = false ∧
      c.isDigit = false := by
  interval_cases mo <;> exact ⟨_, _, rfl, by decide, by decide⟩

theorem pMonthIn_full_digit (n : Nat) (rest : List Char) :
    pMonthIn monthNamesFull (digitChar n :: rest) = none := by
  simp [pMonthIn, monthNamesFull, stripPrefixCI, toLower_digitChar,
    beq_j_digitChar, beq_f_digitChar, beq_m_digitChar, beq_a_digitChar,
    beq_s_digitChar, beq_o_digitChar, beq_n_digitChar, beq_d_digitChar]

theorem pMonthIn_abbr_digit (n : Nat) (rest : List Char) :
    pMonthIn monthNamesAbbr (digitChar n :: rest) = none := by
  simp [pMonthIn, monthNamesAbbr, stripPrefixCI, toLower_digitChar,
    beq_j_digitChar, beq_f_digitChar, beq_m_digitChar, beq_a_digitChar,
    beq_s_digitChar, beq_o_digitChar, beq_n_digitChar, beq_d_digitChar]

theorem pMonthIn_full_render (mo : Nat) (h1 : 1 ≤ mo) (h2 : mo ≤ 12)
    (rest : List Char) :
    pMonthIn monthNamesFull ((monthFull mo).toList ++ rest)
      = some (mo, rest) := by
  interval_cases mo <;>
    simp [monthFull, pMonthIn, monthNamesFull, stripPrefixCI]

theorem pMonthIn_abbr_render (mo : Nat) (h1 : 1 ≤ mo) (h2 : mo ≤ 12)
    (rest : List Char) :
    pMonthIn monthNamesAbbr ((monthAbbr mo).toList ++ rest)
      = some (mo, rest) := by
  interval_cases mo <;>
    simp [monthAbbr, pMonthIn, monthNamesAbbr, stripPrefixCI]

theorem pMonthIn_full_on_abbr (mo : Nat) (h1 : 1 ≤ mo) (h2 : mo ≤ 12)
    (h5 : mo ≠ 5) (rest : List Char) :
    pMonthIn monthNamesFull ((monthAbbr mo).toList ++ ' ' :: rest)
      = none := by
  interval_cases mo <;>
    first
    | exact absurd rfl h5
    | simp [monthAbbr, pMonthIn, monthNamesFull, stripPrefixCI]

theorem pFmtISO_monthFull (mo : Nat) (h1 : 1 ≤ mo) (h2 : mo ≤ 12)
    (rest : List Char) :
    pFmtISO ((monthFull mo).toList ++ ' ' :: rest) = none := by
  interval_cases mo <;> simp [monthFull, pFmtISO, pD4]

theorem pFmtISO_monthAbbr (mo : Nat) (h1 : 1 ≤ mo) (h2 : mo ≤ 12)
    (rest : List Char) :
    pFmtISO ((monthAbbr mo).toList ++ ' ' :: rest) = none := by
  interval_cases mo <;> simp [monthAbbr, pFmtISO, pD4]

theorem pSpaces_space_monthFull (mo : Nat) (h1 : 1 ≤ mo) (h2 : mo ≤ 12)
    (rest : List Char) :
    pSpaces (' ' :: ((monthFull mo).toList ++ rest))
      = some ((monthFull mo).toList ++ rest) := by
  obtain ⟨c, t, hct, hws, -⟩ := monthFull_shape mo h1 h2
  rw [hct]
  simp [pSpaces, List.cons_append, List.dropWhile_cons, hws]

theorem pSpaces_space_monthAbbr (mo : Nat) (h1 : 1 ≤ mo) (h2 : mo ≤ 12)
    (rest : List Char) :
    pSpaces (' ' :: ((monthAbbr mo).toList ++ rest))
      = some ((monthAbbr mo).toList ++ rest) := by
  obtain ⟨c, t, hct, hws, -⟩ := monthAbbr_shape mo h1 h2
  rw [hct]
  simp [pSpaces, List.cons_append, List.dropWhile_cons, hws]

theorem pFmtISO_dd_space (dy : Nat) (c4 : Char) (rest : List Char) :
    pFmtISO (render2 dy ++ ' ' :: c4 :: rest) = none := by
  simp [render2, List.cons_append, pFmtISO, pD4]

theorem pFmtISO_dd_slash (a b : Nat) (rest : List Char) :
    pFmtISO (render2 a ++ '/' :: (render2 b ++ rest)) = none := by
  simp [render2, List.cons_append, pFmtISO, pD4]

theorem pFmtBdY_render2 (a : Nat) (rest : List Char) :
    pFmtBdY (render2 a ++ rest) = none := by
  simp [render2, List.cons_append, pFmtBdY, pMonthIn_full_digit]

theorem pFmtbdY_render2 (a : Nat) (rest : List Char) :
    pFmtbdY (render2 a ++ rest) = none := by
  simp [render2, List.cons_append, pFmtbdY, pMonthIn_abbr_digit]

theorem pFmtBdY_render4 (y : Nat) (rest : List Char) :
    pFmtBdY (render4 y ++ rest) = none := by
  simp [render4, List.cons_append, pFmtBdY, pMonthIn_full_digit]

theorem pFmtbdY_render4 (y : Nat) (rest : List Char) :
    pFmtbdY (render4 y ++ rest) = none := by
  simp [render4, List.cons_append, pFmtbdY, pMonthIn_abbr_digit]

theorem pFmtdBY_dd_slash (a : Nat) (rest : List Char) :
    pFmtdBY (render2 a ++ '/' :: rest) = none := by
  simp [render2, List.cons_append, pFmtdBY, pD2, isDigit_digitChar, pSpaces]

theorem pFmtdbY_dd_slash (a : Nat) (rest : List Char) :
    pFmtdbY (render2 a ++ '/' :: rest) = none := by
  simp [render2, List.cons_append, pFmtdbY, pD2, isDigit_digitChar, pSpaces]

theorem pFmtdBY_render4 (y : Nat) (rest : List Char) :
    pFmtdBY (render4 y ++ rest) = none := by
  simp [render4, List.cons_append, pFmtdBY, pD2, isDigit_digitChar, pSpaces,
    not_ws_digitChar]

theorem pFmtdbY_render4 (y : Nat) (rest : List Char) :
    pFmtdbY (render4 y ++ rest) = none := by
  simp [render4, List.cons_append, pFmtdbY, pD2, isDigit_digitChar, pSpaces,
    not_ws_digitChar]

theorem pFmtmdY_render4_dash (y : Nat) (rest : List Char) :
    pFmtmdY (render4 y ++ '-' :: rest) = none := by
  simp [render4, List.cons_append, pFmtmdY, pD2, isDigit_digitChar, pLit,
    beq_digitChar_slash]

theorem pFmtdmY_render4_dash (y : Nat) (rest : List Char) :
    pFmtdmY (render4 y ++ '-' :: rest) = none := by
  simp [render4, List.cons_append, pFmtdmY, pD2, isDigit_digitChar, pLit,
    beq_digitChar_slash]

theorem pFmtISO_isoT (y mo dy : Nat) (rest : List Char) :
    pFmtISO (render4 y ++ '-' :: (render2 mo ++ '-' :: (render2 dy ++ ' ' :: rest)))
      = none := by
  simp [pFmtISO, pD4_render4, pLit_self, pD2_render2, pEnd]


theorem getLast_append_cons (l1 : List Char) (c : Char) (l2 : List Char) :
    (l1 ++ c :: l2).getLast? = (c :: l2).getLast? :=
  List.getLast?_append_of_ne_nil _ (by simp)

theorem getLast_cons_append_cons (c : Char) (l1 : List Char) (d : Char)
    (l2 : List Char) :
    (c :: (l1 ++ d :: l2)).getLast? = (d :: l2).getLast? := by
  rw [show c :: (l1 ++ d :: l2) = (c :: l1) ++ d :: l2 from rfl]
  exact getLast_append_cons _ _ _

theorem trim_iso (y mo dy : Nat) :
    trimChars (render4 y ++ '-' :: render2 mo ++ '-' :: render2 dy)
      = render4 y ++ '-' :: render2 mo ++ '-' :: render2 dy := by
  apply trimChars_eq_self
  · intro c hc
    simp only [render4, List.cons_append, List.head?_cons,
      Option.some.injEq] at hc
    subst hc
    exact not_ws_digitChar _
  · intro c hc
    simp only [render2, render4, List.cons_append, List.nil_append,
      getLast_append_cons, getLast_cons_append_cons,
      List.getLast?_cons_cons, List.getLast?_singleton,
      Option.some.injEq] at hc
    subst hc
    exact not_ws_digitChar _

theorem trim_fullMonth (y mo dy : Nat) (h1 : 1 ≤ mo) (h2 : mo ≤ 12) :
    trimChars ((monthFull mo).toList ++ ' ' :: render2 dy ++ ',' :: ' ' :: render4 y)
      = (monthFull mo).toList ++ ' ' :: render2 dy ++ ',' :: ' ' :: render4 y := by
  obtain ⟨c0, t0, hct, hws, -⟩ := monthFull_shape mo h1 h2
  apply trimChars_eq_self
  · intro c hc
    rw [hct] at hc
    simp only [List.cons_append, List.head?_cons, Option.some.injEq] at hc
    subst hc
    exact hws
  · intro c hc
    simp only [render2, render4, List.cons_append, List.nil_append,
      getLast_append_cons, getLast_cons_append_cons,
      List.getLast?_cons_cons, List.getLast?_singleton,
      Option.some.injEq] at hc
    subst hc
    exact not_ws_digitChar _

theorem trim_abbrMonth (y mo dy : Nat) (h1 : 1 ≤ mo) (h2 : mo ≤ 12) :
    trimChars ((monthAbbr mo).toList ++ ' ' :: render2 dy ++ ',' :: ' ' :: render4 y)
      = (monthAbbr mo).toList ++ ' ' :: render2 dy ++ ',' :: ' ' :: render4 y := by
  obtain ⟨c0, t0, hct, hws, -⟩ := monthAbbr_shape mo h1 h2
  apply trimChars_eq_self
  · intro c hc
    rw [hct] at hc
    simp only [List.cons_append, List.head?_cons, Option.some.injEq] at hc
    subst hc
    exact hws
  · intro c hc
    simp only [render2, render4, List.cons_append, List.nil_append,
      getLast_append_cons, getLast_cons_append_cons,
      List.getLast?_cons_cons, List.getLast?_singleton,
      Option.some.injEq] at hc
    subst hc
    exact not_ws_digitChar _

theorem trim_day_name (dy : Nat) (nm : List Char) (y : Nat) :
    trimChars (render2 dy ++ ' ' :: nm ++ ' ' :: render4 y)
      = render2 dy ++ ' ' :: nm ++ ' ' :: render4 y := by
  apply trimChars_eq_self
  · intro c hc
    simp only [render2, List.cons_append, List.head?_cons,
      Option.some.injEq] at hc
    subst hc
    exact not_ws_digitChar _
  · intro c hc
    simp only [render2, render4, List.cons_append, List.nil_append,
      getLast_append_cons, getLast_cons_append_cons,
      List.getLast?_cons_cons, List.getLast?_singleton,
      Option.some.injEq] at hc
    subst hc
    exact not_ws_digitChar _

theorem trim_slash (a b y : Nat) :
    trimChars (render2 a ++ '/' :: render2 b ++ '/' :: render4 y)
      = render2 a ++ '/' :: render2 b ++ '/' :: render4 y := by
  apply trimChars_eq_self
  · intro c hc
    simp only [render2, List.cons_append, List.head?_cons,
      Option.some.injEq] at hc
    subst hc
    exact not_ws_digitChar _
  · intro c hc
    simp only [render2, render4, List.cons_append, List.nil_append,
      getLast_append_cons, getLast_cons_append_cons,
      List.getLast?_cons_cons, List.getLast?_singleton,
      Option.some.injEq] at hc
    subst hc
    exact not_ws_digitChar _

theorem trim_isoT (y mo dy h mi s : Nat) :
    trimChars (render4 y ++ '-' :: render2 mo ++ '-' :: render2 dy
        ++ ' ' :: render2 h ++ ':' :: render2 mi ++ ':' :: render2 s)
      = render4 y ++ '-' :: render2 mo ++ '-' :: render2 dy
        ++ ' ' :: render2 h ++ ':' :: render2 mi ++ ':' :: render2 s := by
  apply trimChars_eq_self
  · intro c hc
    simp only [render4, List.cons_append, List.head?_cons,
      Option.some.injEq] at hc
    subst hc
    exact not_ws_digitChar _
  · intro c hc
    simp only [render2, render4, List.cons_append, List.nil_append,
      getLast_append_cons, getLast_cons_append_cons,
      List.getLast?_cons_cons, List.getLast?_singleton,
      Option.some.injEq] at hc
    subst hc
    exact not_ws_digitChar _

theorem rt_iso (y mo dy : Nat) (hy1 : 1000 ≤ y) (hy2 : y ≤ 9999)
    (hm1 : 1 ≤ mo) (hm2 : mo ≤ 12) (hd1 : 1 ≤ dy)
    (hd2 : dy ≤ daysInMonth y mo) :
    parse_date (String.mk (renderDate .iso ⟨y, mo, dy, 0, 0, 0⟩))
      = some ⟨y, mo, dy, 0, 0, 0⟩ := by
  have hdy : dy % 100 = dy := by
    have := (daysInMonth_bounds y mo).2
    omega
  have hmo : mo % 100 = mo := by omega
  have hy : y % 10000 = y := by omega
  have hmk := mkDT_eq y mo dy (by omega) hy2 hm1 hm2 hd1 hd2
  have hsucc : pFmtISO (render4 y ++ '-' :: (render2 mo ++ '-' :: render2 dy))
      = some ⟨y, mo, dy, 0, 0, 0⟩ := by
    rw [pFmtISO, pD4_render4, hy]
    simp only [Option.bind_eq_bind, Option.some_bind]
    rw [pLit_self]
    simp only [Option.bind_eq_bind, Option.some_bind]
    rw [pD2_render2, hmo]
    simp only [Option.bind_eq_bind, Option.some_bind]
    rw [pLit_self]
    simp only [Option.bind_eq_bind, Option.some_bind]
    rw [pD2_render2_nil, hdy]
    simp only [Option.bind_eq_bind, Option.some_bind, pEnd]
    exact hmk
  simp only [parse_date, renderDate, toList_mk]
  rw [trim_iso y mo dy]
  simp only [List.append_assoc, List.cons_append]
  rw [hsucc]
  rfl

theorem rt_fullMonth (y mo dy : Nat) (hy1 : 1000 ≤ y) (hy2 : y ≤ 9999)
    (hm1 : 1 ≤ mo) (hm2 : mo ≤ 12) (hd1 : 1 ≤ dy)
    (hd2 : dy ≤ daysInMonth y mo) :
    parse_date (String.mk (renderDate .fullMonth ⟨y, mo, dy, 0, 0, 0⟩))
      = some ⟨y, mo, dy, 0, 0, 0⟩ := by
  have hdy : dy % 100 = dy := by
    have := (daysInMonth_bounds y mo).2
    omega
  have hy : y % 10000 = y := by omega
  have hmk := mkDT_eq y mo dy (by omega) hy2 hm1 hm2 hd1 hd2
  have hISO := pFmtISO_monthFull mo hm1 hm2 (render2 dy ++ ',' :: ' ' :: render4 y)
  have hB : pFmtBdY ((monthFull mo).toList
        ++ ' ' :: (render2 dy ++ ',' :: ' ' :: render4 y))
      = some ⟨y, mo, dy, 0, 0, 0⟩ := by
    rw [pFmtBdY, pMonthIn_full_render mo hm1 hm2]
    simp only [Option.bind_eq_bind, Option.some_bind]
    rw [pSpaces_space_render2]
    simp only [Option.bind_eq_bind, Option.some_bind]
    rw [pD2_render2, hdy]
    simp only [Option.bind_eq_bind, Option.some_bind]
    rw [pLit_self]
    simp only [Option.bind_eq_bind, Option.some_bind]
    rw [pSpaces_space_render4]
    simp only [Option.bind_eq_bind, Option.some_bind]
    rw [pD4_render4_nil, hy]
    simp only [Option.bind_eq_bind, Option.some_bind, pEnd]
    exact hmk
  simp only [parse_date, toList_mk, renderDate]
  rw [trim_fullMonth y mo dy hm1 hm2]
  simp only [List.append_assoc, List.cons_append]
  rw [hISO, hB]
  rfl

theorem rt_abbrMonth (y mo dy : Nat) (hy1 : 1000 ≤ y) (hy2 : y ≤ 9999)
    (hm1 : 1 ≤ mo) (hm2 : mo ≤ 12) (hd1 : 1 ≤ dy)
    (hd2 : dy ≤ daysInMonth y mo) :
    parse_date (String.mk (renderDate .abbrMonth ⟨y, mo, dy, 0, 0, 0⟩))
      = some ⟨y, mo, dy, 0, 0, 0⟩ := by
  by_cases h5 : mo = 5
  · subst h5
    exact rt_fullMonth y 5 dy hy1 hy2 hm1 hm2 hd1 hd2
  · have hdy : dy % 100 = dy := by
      have := (daysInMonth_bounds y mo).2
      omega
    have hy : y % 10000 = y := by omega
    have hmk := mkDT_eq y mo dy (by omega) hy2 hm1 hm2 hd1 hd2
    have hISO := pFmtISO_monthAbbr mo hm1 hm2 (render2 dy ++ ',' :: ' ' :: render4 y)
    have hB : pFmtBdY ((monthAbbr mo).toList
          ++ ' ' :: (render2 dy ++ ',' :: ' ' :: render4 y)) = none := by
      rw [pFmtBdY, pMonthIn_full_on_abbr mo hm1 hm2 h5]
      rfl
    have hb : pFmtbdY ((monthAbbr mo).toList
          ++ ' ' :: (render2 dy ++ ',' :: ' ' :: render4 y))
        = some ⟨y, mo, dy, 0, 0, 0⟩ := by
      rw [pFmtbdY, pMonthIn_abbr_render mo hm1 hm2]
      simp only [Option.bind_eq_bind, Option.some_bind]
      rw [pSpaces_space_render2]
      simp only [Option.bind_eq_bind, Option.some_bind]
      rw [pD2_render2, hdy]
      simp only [Option.bind_eq_bind, Option.some_bind]
      rw [pLit_self]
      simp only [Option.bind_eq_bind, Option.some_bind]
      rw [pSpaces_space_render4]
      simp only [Option.bind_eq_bind, Option.some_bind]
      rw [pD4_render4_nil, hy]
      simp only [Option.bind_eq_bind, Option.some_bind, pEnd]
      exact hmk
    simp only [parse_date, toList_mk, renderDate]
    rw [trim_abbrMonth y mo dy hm1 hm2]
    simp only [List.append_assoc, List.cons_append]
    rw [hISO, hB, hb]
    rfl

theorem rt_dayFullMonth (y mo dy : Nat) (hy1 : 1000 ≤ y) (hy2 : y ≤ 9999)
    (hm1 : 1 ≤ mo) (hm2 : mo ≤ 12) (hd1 : 1 ≤ dy)
    (hd2 : dy ≤ daysInMonth y mo) :
    parse_date (String.mk (renderDate .dayFullMonth ⟨y, mo, dy, 0, 0, 0⟩))
      = some ⟨y, mo, dy, 0, 0, 0⟩ := by
  have hdy : dy % 100 = dy := by
    have := (daysInMonth_bounds y mo).2
    omega
  have hy : y % 10000 = y := by omega
  have hmk := mkDT_eq y mo dy (by omega) hy2 hm1 hm2 hd1 hd2
  obtain ⟨c0, t0, hct, -, -⟩ := monthFull_shape mo hm1 hm2
  have hISO : pFmtISO (render2 dy
        ++ ' ' :: ((monthFull mo).toList ++ ' ' :: render4 y)) = none := by
    rw [hct]
    simp only [List.cons_append]
    exact pFmtISO_dd_space dy c0 (t0 ++ ' ' :: render4 y)
  have hB := pFmtBdY_render2 dy
    (' ' :: ((monthFull mo).toList ++ ' ' :: render4 y))
  have hb := pFmtbdY_render2 dy
    (' ' :: ((monthFull mo).toList ++ ' ' :: render4 y))
  have hdB : pFmtdBY (render2 dy
        ++ ' ' :: ((monthFull mo).toList ++ ' ' :: render4 y))
      = some ⟨y, mo, dy, 0, 0, 0⟩ := by
    rw [pFmtdBY, pD2_render2, hdy]
    simp only [Option.bind_eq_bind, Option.some_bind]
    rw [pSpaces_space_monthFull mo hm1 hm2]
    simp only [Option.bind_eq_bind, Option.some_bind]
    rw [pMonthIn_full_render mo hm1 hm2]
    simp only [Option.bind_eq_bind, Option.some_bind]
    rw [pSpaces_space_render4]
    simp only [Option.bind_eq_bind, Option.some_bind]
    rw [pD4_render4_nil, hy]
    simp only [Option.bind_eq_bind, Option.some_bind, pEnd]
    exact hmk
  simp only [parse_date, toList_mk, renderDate]
  rw [trim_day_name dy (monthFull mo).toList y]
  simp only [List.append_assoc, List.cons_append]
  rw [hISO, hB, hb, hdB]
  rfl

theorem rt_dayAbbrMonth (y mo dy : Nat) (hy1 : 1000 ≤ y) (hy2 : y ≤ 9999)
    (hm1 : 1 ≤ mo) (hm2 : mo ≤ 12) (hd1 : 1 ≤ dy)
    (hd2 : dy ≤ daysInMonth y mo) :
    parse_date (String.mk (renderDate .dayAbbrMonth ⟨y, mo, dy, 0, 0, 0⟩))
      = some ⟨y, mo, dy, 0, 0, 0⟩ := by
  by_cases h5 : mo = 5
  · subst h5
    exact rt_dayFullMonth y 5 dy hy1 hy2 hm1 hm2 hd1 hd2
  · have hdy : dy % 100 = dy := by
      have := (daysInMonth_bounds y mo).2
      omega
    have hy : y % 10000 = y := by omega
    have hmk := mkDT_eq y mo dy (by omega) hy2 hm1 hm2 hd1 hd2
    obtain ⟨c0, t0, hct, -, -⟩ := monthAbbr_shape mo hm1 hm2
    have hISO : pFmtISO (render2 dy
          ++ ' ' :: ((monthAbbr mo).toList ++ ' ' :: render4 y)) = none := by
      rw [hct]
      simp only [List.cons_append]
      exact pFmtISO_dd_space dy c0 (t0 ++ ' ' :: render4 y)
    have hB := pFmtBdY_render2 dy
      (' ' :: ((monthAbbr mo).toList ++ ' ' :: render4 y))
    have hb := pFmtbdY_render2 dy
      (' ' :: ((monthAbbr mo).toList ++ ' ' :: render4 y))
    have hdB : pFmtdBY (render2 dy
          ++ ' ' :: ((monthAbbr mo).toList ++ ' ' :: render4 y)) = none := by
      rw [pFmtdBY, pD2_render2]
      simp only [Option.bind_eq_bind, Option.some_bind]
      rw [pSpaces_space_monthAbbr mo hm1 hm2]
      simp only [Option.bind_eq_bind, Option.some_bind]
      rw [pMonthIn_full_on_abbr mo hm1 hm2 h5]
      rfl
    have hdb : pFmtdbY (render2 dy
          ++ ' ' :: ((monthAbbr mo).toList ++ ' ' :: render4 y))
        = some ⟨y, mo, dy, 0, 0, 0⟩ := by
      rw [pFmtdbY, pD2_render2, hdy]
      simp only [Option.bind_eq_bind, Option.some_bind]
      rw [pSpaces_space_monthAbbr mo hm1 hm2]
      simp only [Option.bind_eq_bind, Option.some_bind]
      rw [pMonthIn_abbr_render mo hm1 hm2]
      simp only [Option.bind_eq_bind, Option.some_bind]
      rw [pSpaces_space_render4]
      simp only [Option.bind_eq_bind, Option.some_bind]
      rw [pD4_render4_nil, hy]
      simp only [Option.bind_eq_bind, Option.some_bind, pEnd]
      exact hmk
    simp only [parse_date, toList_mk, renderDate]
    rw [trim_day_name dy (monthAbbr mo).toList y]
    simp only [List.append_assoc, List.cons_append]
    rw [hISO, hB, hb, hdB, hdb]
    rfl

theorem rt_mdY (y mo dy : Nat) (hy1 : 1000 ≤ y) (hy2 : y ≤ 9999)
    (hm1 : 1 ≤ mo) (hm2 : mo ≤ 12) (hd1 : 1 ≤ dy)
    (hd2 : dy ≤ daysInMonth y mo) :
    parse_date (String.mk (renderDate .slashMDY ⟨y, mo, dy, 0, 0, 0⟩))
      = some ⟨y, mo, dy, 0, 0, 0⟩ := by
  have hdy : dy % 100 = dy := by
    have := (daysInMonth_bounds y mo).2
    omega
  have hmo : mo % 100 = mo := by omega
  have hy : y % 10000 = y := by omega
  have hmk := mkDT_eq y mo dy (by omega) hy2 hm1 hm2 hd1 hd2
  have hISO := pFmtISO_dd_slash mo dy ('/' :: render4 y)
  have hB := pFmtBdY_render2 mo ('/' :: (render2 dy ++ '/' :: render4 y))
  have hb := pFmtbdY_render2 mo ('/' :: (render2 dy ++ '/' :: render4 y))
  have hdB := pFmtdBY_dd_slash mo (render2 dy ++ '/' :: render4 y)
  have hdb := pFmtdbY_dd_slash mo (render2 dy ++ '/' :: render4 y)
  have hm : pFmtmdY (render2 mo ++ '/' :: (render2 dy ++ '/' :: render4 y))
      = some ⟨y, mo, dy, 0, 0, 0⟩ := by
    rw [pFmtmdY, pD2_render2, hmo]
    simp only [Option.bind_eq_bind, Option.some_bind]
    rw [pLit_self]
    simp only [Option.bind_eq_bind, Option.some_bind]
    rw [pD2_render2, hdy]
    simp only [Option.bind_eq_bind, Option.some_bind]
    rw [pLit_self]
    simp only [Option.bind_eq_bind, Option.some_bind]
    rw [pD4_render4_nil, hy]
    simp only [Option.bind_eq_bind, Option.some_bind, pEnd]
    exact hmk
  simp only [parse_date, toList_mk, renderDate]
  rw [trim_slash mo dy y]
  simp only [List.append_assoc, List.cons_append]
  rw [hISO, hB, hb, hdB, hdb, hm]
  rfl

theorem rt_dmY_small (y mo dy : Nat) (hy1 : 1000 ≤ y) (hy2 : y ≤ 9999)
    (hm1 : 1 ≤ mo) (hm2 : mo ≤ 12) (hd1 : 1 ≤ dy)
    (hsmall : dy ≤ 12) :
    parse_date (String.mk (renderDate .slashDMY ⟨y, mo, dy, 0, 0, 0⟩))
      = some ⟨y, dy, mo, 0, 0, 0⟩ := by
  have hdy : dy % 100 = dy := by omega
  have hmo : mo % 100 = mo := by omega
  have hy : y % 10000 = y := by omega
  have hmk2 : mkDT y dy mo 0 0 0 = some ⟨y, dy, mo, 0, 0, 0⟩ :=
    mkDT_eq y dy mo (by omega) hy2 hd1 hsmall hm1
      (le_trans hm2 (daysInMonth_bounds y dy).1)
  have hISO := pFmtISO_dd_slash dy mo ('/' :: render4 y)
  have hB := pFmtBdY_render2 dy ('/' :: (render2 mo ++ '/' :: render4 y))
  have hb := pFmtbdY_render2 dy ('/' :: (render2 mo ++ '/' :: render4 y))
  have hdB := pFmtdBY_dd_slash dy (render2 mo ++ '/' :: render4 y)
  have hdb := pFmtdbY_dd_slash dy (render2 mo ++ '/' :: render4 y)
  have hm : pFmtmdY (render2 dy ++ '/' :: (render2 mo ++ '/' :: render4 y))
      = some ⟨y, dy, mo, 0, 0, 0⟩ := by
    rw [pFmtmdY, pD2_render2, hdy]
    simp only [Option.bind_eq_bind, Option.some_bind]
    rw [pLit_self]
    simp only [Option.bind_eq_bind, Option.some_bind]
    rw [pD2_render2, hmo]
    simp only [Option.bind_eq_bind, Option.some_bind]
    rw [pLit_self]
    simp only [Option.bind_eq_bind, Option.some_bind]
    rw [pD4_render4_nil, hy]
    simp only [Option.bind_eq_bind, Option.some_bind, pEnd]
    exact hmk2
  simp only [parse_date, toList_mk, renderDate]
  rw [trim_slash dy mo y]
  simp only [List.append_assoc, List.cons_append]
  rw [hISO, hB, hb, hdB, hdb, hm]
  rfl

theorem rt_dmY_big (y mo dy : Nat) (hy1 : 1000 ≤ y) (hy2 : y ≤ 9999)
    (hm1 : 1 ≤ mo) (hm2 : mo ≤ 12) (hd1 : 1 ≤ dy)
    (hd2 : dy ≤ daysInMonth y mo) (hbig : 12 < dy) :
    parse_date (String.mk (renderDate .slashDMY ⟨y, mo, dy, 0, 0, 0⟩))
      = some ⟨y, mo, dy, 0, 0, 0⟩ := by
  have hdy : dy % 100 = dy := by
    have := (daysInMonth_bounds y mo).2
    omega
  have hmo : mo % 100 = mo := by omega
  have hy : y % 10000 = y := by omega
  have hmk := mkDT_eq y mo dy (by omega) hy2 hm1 hm2 hd1 hd2
  have hISO := pFmtISO_dd_slash dy mo ('/' :: render4 y)
  have hB := pFmtBdY_render2 dy ('/' :: (render2 mo ++ '/' :: render4 y))
  have hb := pFmtbdY_render2 dy ('/' :: (render2 mo ++ '/' :: render4 y))
  have hdB := pFmtdBY_dd_slash dy (render2 mo ++ '/' :: render4 y)
  have hdb := pFmtdbY_dd_slash dy (render2 mo ++ '/' :: render4 y)
  have hm : pFmtmdY (render2 dy ++ '/' :: (render2 mo ++ '/' :: render4 y))
      = none := by
    rw [pFmtmdY, pD2_render2, hdy]
    simp only [Option.bind_eq_bind, Option.some_bind]
    rw [pLit_self]
    simp only [Option.bind_eq_bind, Option.some_bind]
    rw [pD2_render2, hmo]
    simp only [Option.bind_eq_bind, Option.some_bind]
    rw [pLit_self]
    simp only [Option.bind_eq_bind, Option.some_bind]
    rw [pD4_render4_nil, hy]
    simp only [Option.bind_eq_bind, Option.some_bind, pEnd]
    exact mkDT_none_of_badmonth y dy mo hbig
  have hd : pFmtdmY (render2 dy ++ '/' :: (render2 mo ++ '/' :: render4 y))
      = some ⟨y, mo, dy, 0, 0, 0⟩ := by
    rw [pFmtdmY, pD2_render2, hdy]
    simp only [Option.bind_eq_bind, Option.some_bind]
    rw [pLit_self]
    simp only [Option.bind_eq_bind, Option.some_bind]
    rw [pD2_render2, hmo]
    simp only [Option.bind_eq_bind, Option.some_bind]
    rw [pLit_self]
    simp only [Option.bind_eq_bind, Option.some_bind]
    rw [pD4_render4_nil, hy]
    simp only [Option.bind_eq_bind, Option.some_bind, pEnd]
    exact hmk
  simp only [parse_date, toList_mk, renderDate]
  rw [trim_slash dy mo y]
  simp only [List.append_assoc, List.cons_append]
  rw [hISO, hB, hb, hdB, hdb, hm, hd]
  rfl

theorem rt_isoT (y mo dy : Nat) (hy1 : 1000 ≤ y) (hy2 : y ≤ 9999)
    (hm1 : 1 ≤ mo) (hm2 : mo ≤ 12) (hd1 : 1 ≤ dy)
    (hd2 : dy ≤ daysInMonth y mo) :
    parse_date (String.mk (renderDate .isoSeconds ⟨y, mo, dy, 0, 0, 0⟩))
      = some ⟨y, mo, dy, 0, 0, 0⟩ := by
  have hdy : dy % 100 = dy := by
    have := (daysInMonth_bounds y mo).2
    omega
  have hmo : mo % 100 = mo := by omega
  have hy : y % 10000 = y := by omega
  have hmk := mkDT_eq y mo dy (by omega) hy2 hm1 hm2 hd1 hd2
  have hISO := pFmtISO_isoT y mo dy
    (render2 0 ++ ':' :: (render2 0 ++ ':' :: render2 0))
  have hB := pFmtBdY_render4 y
    ('-' :: (render2 mo ++ '-' :: (render2 dy
      ++ ' ' :: (render2 0 ++ ':' :: (render2 0 ++ ':' :: render2 0)))))
  have hb := pFmtbdY_render4 y
    ('-' :: (render2 mo ++ '-' :: (render2 dy
      ++ ' ' :: (render2 0 ++ ':' :: (render2 0 ++ ':' :: render2 0)))))
  have hdB := pFmtdBY_render4 y
    ('-' :: (render2 mo ++ '-' :: (render2 dy
      ++ ' ' :: (render2 0 ++ ':' :: (render2 0 ++ ':' :: render2 0)))))
  have hdb := pFmtdbY_render4 y
    ('-' :: (render2 mo ++ '-' :: (render2 dy
      ++ ' ' :: (render2 0 ++ ':' :: (render2 0 ++ ':' :: render2 0)))))
  have hm := pFmtmdY_render4_dash y
    (render2 mo ++ '-' :: (render2 dy
      ++ ' ' :: (render2 0 ++ ':' :: (render2 0 ++ ':' :: render2 0))))
  have hd := pFmtdmY_render4_dash y
    (render2 mo ++ '-' :: (render2 dy
      ++ ' ' :: (render2 0 ++ ':' :: (render2 0 ++ ':' :: render2 0))))
  have hT : pFmtISOT (render4 y ++ '-' :: (render2 mo ++ '-' :: (render2 dy
        ++ ' ' :: (render2 0 ++ ':' :: (render2 0 ++ ':' :: render2 0)))))
      = some ⟨y, mo, dy, 0, 0, 0⟩ := by
    rw [pFmtISOT, pD4_render4, hy]
    simp only [Option.bind_eq_bind, Option.some_bind]
    rw [pLit_self]
    simp only [Option.bind_eq_bind, Option.some_bind]
    rw [pD2_render2, hmo]
    simp only [Option.bind_eq_bind, Option.some_bind]
    rw [pLit_self]
    simp only [Option.bind_eq_bind, Option.some_bind]
    rw [pD2_render2, hdy]
    simp only [Option.bind_eq_bind, Option.some_bind]
    rw [pSpaces_space_render2]
    simp only [Option.bind_eq_bind, Option.some_bind]
    rw [pD2_render2]
    simp only [Nat.zero_mod, Option.bind_eq_bind, Option.some_bind]
    rw [pLit_self]
    simp only [Option.bind_eq_bind, Option.some_bind]
    rw [pD2_render2]
    simp only [Nat.zero_mod, Option.bind_eq_bind, Option.some_bind]
    rw [pLit_self]
    simp only [Option.bind_eq_bind, Option.some_bind]
    rw [pD2_render2_nil]
    simp only [Nat.zero_mod, Option.bind_eq_bind, Option.some_bind, pEnd]
    exact hmk
  simp only [parse_date, toList_mk, renderDate]
  rw [trim_isoT y mo dy 0 0 0]
  simp only [List.append_assoc, List.cons_append]
  rw [hISO, hB, hb, hdB, hdb, hm, hd, hT]
  rfl

/-- C3 (counterexample): March 5, 2024 rendered in the DD/MM/YYYY format
is the string "05/03/2024", which `parse_date` resolves at the earlier
`%m/%d/%Y` format as May 3, 2024 — a different calendar date.  The
round-trip therefore fails for the DD/MM/YYYY rendering. -/
theorem parse_roundtrip_fails_ddmm :
    parse_date (String.mk (renderDate .slashDMY ⟨2024, 3, 5, 0, 0, 0⟩))
      = some ⟨2024, 5, 3, 0, 0, 0⟩ ∧
    parse_date (String.mk (renderDate .slashDMY ⟨2024, 3, 5, 0, 0, 0⟩))
      ≠ some ⟨2024, 3, 5, 0, 0, 0⟩ := by
  decide

/-- C3 (amended): for every valid calendar date with a 4-digit year,
rendering and re-parsing returns the same calendar date for seven of the
eight supported formats (ISO, long month, abbreviated month, day-first
long/abbreviated month, MM/DD/YYYY, ISO with time); for the DD/MM/YYYY
rendering the round-trip holds exactly when the day exceeds 12 (so the
earlier MM/DD/YYYY format rejects it) or day and month coincide. -/
theorem parse_renderDate_roundtrip (y mo dy : Nat) (hy1 : 1000 ≤ y)
    (hy2 : y ≤ 9999) (hm1 : 1 ≤ mo) (hm2 : mo ≤ 12) (hd1 : 1 ≤ dy)
    (hd2 : dy ≤ daysInMonth y mo) :
    (∀ f : DateFmt, f ≠ .slashDMY →
        parse_date (String.mk (renderDate f ⟨y, mo, dy, 0, 0, 0⟩))
          = some ⟨y, mo, dy, 0, 0, 0⟩) ∧
    (parse_date (String.mk (renderDate .slashDMY ⟨y, mo, dy, 0, 0, 0⟩))
        = some ⟨y, mo, dy, 0, 0, 0⟩ ↔ 12 < dy ∨ dy = mo) := by
  constructor
  · intro f hf
    cases f with
    | iso => exact rt_iso y mo dy hy1 hy2 hm1 hm2 hd1 hd2
    | fullMonth => exact rt_fullMonth y mo dy hy1 hy2 hm1 hm2 hd1 hd2
    | abbrMonth => exact rt_abbrMonth y mo dy hy1 hy2 hm1 hm2 hd1 hd2
    | dayFullMonth => exact rt_dayFullMonth y mo dy hy1 hy2 hm1 hm2 hd1 hd2
    | dayAbbrMonth => exact rt_dayAbbrMonth y mo dy hy1 hy2 hm1 hm2 hd1 hd2
    | slashMDY => exact rt_mdY y mo dy hy1 hy2 hm1 hm2 hd1 hd2
    | slashDMY => exact absurd rfl hf
    | isoSeconds => exact rt_isoT y mo dy hy1 hy2 hm1 hm2 hd1 hd2
  · rcases le_or_lt dy 12 with hsmall | hbig
    · rw [rt_dmY_small y mo dy hy1 hy2 hm1 hm2 hd1 hsmall]
      constructor
      · intro h
        simp only [Option.some.injEq, PyDateTime.mk.injEq] at h
        exact Or.inr h.2.1
      · rintro (h | h)
        · omega
        · subst h
          rfl
    · rw [rt_dmY_big y mo dy hy1 hy2 hm1 hm2 hd1 hd2 hbig]
      exact iff_of_true rfl (Or.inl hbig)

/-- Witness for the amended C3 theorem at March 15, 2024. -/
theorem parse_renderDate_roundtrip_witness :
    (∀ f : DateFmt, f ≠ .slashDMY →
        parse_date (String.mk (renderDate f ⟨2024, 3, 15, 0, 0, 0⟩))
          = some ⟨2024, 3, 15, 0, 0, 0⟩) ∧
    (parse_date (String.mk (renderDate .slashDMY ⟨2024, 3, 15, 0, 0, 0⟩))
        = some ⟨2024, 3, 15, 0, 0, 0⟩ ↔ 12 < 15 ∨ 15 = 3) :=
  parse_renderDate_roundtrip 2024 3 15 (by decide) (by decide) (by decide)
    (by decide) (by decide) (by decide)
